import Mathlib

/-!
# tua-api: the request pipeline of `src/TuaApi.js`

A shallow embedding of the class `TuaApi` (file `src/TuaApi.js`): the transport
selection `_reqFn`, the middleware compiler `_getMiddlewareFn`, and the per-call
orchestrator `apiFn` built by `_getOneReqMap`.

JavaScript values are a small first-order datatype; objects are property
lists read with "first binding wins".  Asynchronous code is run to completion:
in a chain in which every step awaits the next one, a promise is the pair of the
state it leaves behind and the way it settles.
-/

namespace Tua

/-! ## JavaScript values -/

/-- First-order JavaScript values.  `num` holds the integer numbers only;
`error name message` is an `Error` object (`name` is `Error`, `TypeError`, ...)
without further properties; `arr` is an array without named properties; `obj`
lists the own enumerable properties of a plain object.  Functions are not
values of this type: hooks and middlewares are Lean functions. -/
inductive Val where
  | undefined
  | null
  | bool (b : Bool)
  | num (n : Int)
  | str (s : String)
  | error (name message : String)
  | arr (items : List Val)
  | obj (fields : List (String × Val))

/-- Own enumerable properties of an object, in order. -/
abbrev Obj := List (String × Val)

instance : Inhabited Val := ⟨Val.undefined⟩

/-- JavaScript `ToBoolean`: what `x ? a : b`, `!x` and `x || y` test. -/
def truthy : Val → Bool
  | .undefined => false
  | .null => false
  | .bool b => b
  | .num n => n != 0
  | .str s => s != ""
  | .error _ _ => true
  | .arr _ => true
  | .obj _ => true

/-- The test `Array.isArray(v)`. -/
def isArray : Val → Bool
  | .arr _ => true
  | _ => false

/-- The value of `Error(message)` as the source writes it. -/
def mkError (message : String) : Val := .error "Error" message

/-- A `TypeError` raised by the engine itself (property read on `undefined`,
call of a non-function).  The message text differs between engines; `what`
only records the operation. -/
def typeError (what : String) : Val := .error "TypeError" what

/-- Keep the first binding of every key: a property list denotes the object in
which the first binding of a key is its value. -/
def dedupKeys (seen : List String) : Obj → Obj
  | [] => []
  | (k, v) :: o =>
    if k ∈ seen then dedupKeys seen o else (k, v) :: dedupKeys (k :: seen) o

/-- Index-keyed entries `0, 1, 2, ...` of a sequence. -/
def indexed (items : List Val) : Obj :=
  items.enum.map (fun p => (toString p.1, p.2))

/-- The properties copied by a spread `...v` inside an object literal: the own
enumerable properties of an object, the index properties of an array or of a
string (one per character), nothing for the other values. -/
def ownEntries : Val → Obj
  | .obj fields => dedupKeys [] fields
  | .arr items => dedupKeys [] (indexed items)
  | .str s => dedupKeys [] (indexed (s.data.map (fun c => Val.str (String.singleton c))))
  | _ => []

/-- The assignment `o.k = v` on a property list: overwrite in place, else append. -/
def setField : Obj → String → Val → Obj
  | [], k, v => [(k, v)]
  | (k', v') :: o, k, v =>
    if k' = k then (k', v) :: o else (k', v') :: setField o k v

/-- The read `o.k` on a property list; `undefined` when there is no such property. -/
def getField (o : Obj) (k : String) : Val :=
  match o.lookup k with
  | some v => v
  | none => .undefined

/-- The object literal tail `..., ...src`: every entry of `src` is set on the
target, in order. -/
def assign (target : Obj) (src : Obj) : Obj :=
  src.foldl (fun acc kv => setField acc kv.1 kv.2) target

/-- The read `v.k` for a value that is neither `undefined` nor `null`. -/
def field (v : Val) (k : String) : Val :=
  match v with
  | .obj fields => getField fields k
  | .error name message =>
    if k = "name" then .str name else if k = "message" then .str message else .undefined
  | .arr items => if k = "length" then .num items.length else getField (ownEntries (.arr items)) k
  | .str s => if k = "length" then .num s.length else getField (ownEntries (.str s)) k
  | _ => .undefined

/-- The property read `v.k`, which throws a `TypeError` on `undefined` and on `null`. -/
def getProp (v : Val) (k : String) : Except Val Val :=
  match v with
  | .undefined => .error (typeError ("read " ++ k ++ " of undefined"))
  | .null => .error (typeError ("read " ++ k ++ " of null"))
  | _ => .ok (field v k)

/-- The rest pattern `..., ...rest` of a destructuring that names `names`. -/
def restOf (v : Val) (names : List String) : Obj :=
  (ownEntries v).filter (fun kv => !(names.contains kv.1))

/-! ## Settled promises and the transport collaborators -/

/-- How a call that is expected to return a promise ends: the promise is
fulfilled, the promise is rejected, or the call throws before returning. -/
inductive Outcome where
  | resolved (v : Val)
  | rejected (e : Val)
  | thrown (e : Val)

/-- The one collaborator call that `_reqFn` returns: each branch of `_reqFn`
that does not throw is a tail call of one adapter on one argument. -/
inductive TransportCall where
  | getWxPromise (options : Val)
  | getAxiosPromise (params : Val)
  | getFetchJsonpPromise (options : Val)

/-- The mutable objects a call can reach: the context `ctx` of the call, the
client field `this.defaultErrorData`, the two properties `apiFn.key` and
`apiFn.params` of the request function, and the two objects of the leaf that
line 244 puts into the context by reference.

Values have no identity in this model, so the sharing is recorded apart.
`params` is the declared params object, the one object that the closure
variable `params`, the property `apiFn.params` as line 285 sets it and, at the
start of a call, `ctx.req.params` all denote; `sharesParams` tells that
`ctx.req.params` is still that object.  While it is, the object lives in the
context: a write into `ctx.req.params` that keeps the flag is a write in
place, seen through `apiFn.params` and by later calls; code that rebinds
`ctx.req.params` stores the object back in `params` and clears the flag.
`fnParams` is `none` while the property `apiFn.params` is the declared params
object, and `some v` once the property has been assigned another value `v`.
`ownBag` and `sharesBag` do for a property `reqFnParams` of the leaf itself,
which the rest spread of line 244 puts in `ctx.req.reqFnParams`, what `params`
and `sharesParams` do for the declared params.  Other objects of the leaf and
of the client that the context shares are held by value. -/
structure World where
  ctx : Obj
  defaultErrorData : Val
  key : Val
  fnParams : Option Val
  params : Val
  sharesParams : Bool
  ownBag : Val
  sharesBag : Bool

/-- The declared params object as it is in the state `w`: what the next call
starts from. -/
def declaredParamsAt (w : World) : Val :=
  if w.sharesParams then field (getField w.ctx "req") "params" else w.params

/-- The value of the property `apiFn.params` in the state `w`. -/
def fnParamsAt (w : World) : Val :=
  match w.fnParams with
  | none => declaredParamsAt w
  | some v => v

/-- The own `reqFnParams` object of the leaf as it is in the state `w`
(`undefined` when the leaf has none). -/
def ownBagAt (w : World) : Val :=
  if w.sharesBag then field (getField w.ctx "req") "reqFnParams" else w.ownBag

/-- A promise of a middleware, run to completion: the state it leaves and
whether it is fulfilled (`ok`) or rejected with a value (`error`). -/
abbrev Settled := World × Except Val Unit

/-- A middleware `(ctx, next) => Promise`: it receives the state at its start
and the continuation `next`, which runs everything downstream. -/
abbrev Middleware := World → (World → Settled) → Settled

/-- What `TuaApi.js` imports and what the engine provides: the constant
`VALID_REQ_TYPES` of `./constants`, `String.prototype.toUpperCase`, the three
adapters of `./adapters/` and the five framing middlewares of `./middlewareFns`. -/
structure Deps where
  VALID_REQ_TYPES : List String
  toUpperCase : String → String
  getWxPromise : Val → Outcome
  getAxiosPromise : Val → Outcome
  getFetchJsonpPromise : Val → Outcome
  recordStartTimeMiddleware : Middleware
  formatReqParamsMiddleware : Middleware
  updateFullUrlMiddleware : Middleware
  formatResDataMiddleware : Middleware
  recordReqTimeMiddleware : Middleware

/-- Performing a collaborator call. -/
def Deps.perform (d : Deps) : TransportCall → Outcome
  | .getWxPromise o => d.getWxPromise o
  | .getAxiosPromise o => d.getAxiosPromise o
  | .getFetchJsonpPromise o => d.getFetchJsonpPromise o

/-! ## `_reqFn` (lines 99-140) -/

/-- The test `VALID_REQ_TYPES.indexOf(reqType) !== -1`: `indexOf` compares with `===`,
so only a string of the list is found. -/
def isValidReqType (d : Deps) : Val → Bool
  | .str s => d.VALID_REQ_TYPES.contains s
  | _ => false

/-- The test `v === s` for a string literal `s`. -/
def strictEqStr : Val → String → Bool
  | .str t, s => t == s
  | _, _ => false

/-- The call `type.toUpperCase()`: a `TypeError` unless `type` is a string. -/
def callToUpperCase (d : Deps) : Val → Except Val String
  | .str s => .ok (d.toUpperCase s)
  | .undefined => .error (typeError "read toUpperCase of undefined")
  | .null => .error (typeError "read toUpperCase of null")
  | _ => .error (typeError "toUpperCase is not a function")

/-- The names bound by the parameter pattern of `_reqFn`. -/
def reqFnNames : List String :=
  ["url", "type", "fullUrl", "reqType", "reqParams", "callbackName", "jsonpOptions",
    "axiosOptions"]

/-- The body of `_reqFn` up to its tail call: either it throws, or it names the
adapter call whose promise `_reqFn` returns. -/
def reqFnCall (d : Deps) (arg : Val) : Except Val TransportCall :=
  match arg with
  | .undefined => .error (typeError "destructure undefined")
  | .null => .error (typeError "destructure null")
  | _ =>
    let url := field arg "url"
    let type := field arg "type"
    let fullUrl := field arg "fullUrl"
    let reqType := field arg "reqType"
    let data := field arg "reqParams"
    let callbackName := field arg "callbackName"
    let jsonpOptions := field arg "jsonpOptions"
    let axiosOptions := field arg "axiosOptions"
    let rest := restOf arg reqFnNames
    if !(isValidReqType d reqType) then
      .error (mkError "invalid reqType")
    else
      match callToUpperCase d type with
      | .error e => .error e
      | .ok method =>
        if strictEqStr reqType "wx" then
          .ok (.getWxPromise (.obj (assign
            [("url", url), ("fullUrl", fullUrl), ("data", data), ("method", .str method)] rest)))
        else if strictEqStr reqType "axios" then
          let params := assign (assign
            [("url", if method = "GET" then fullUrl else url), ("data", data),
              ("method", .str method)] (ownEntries axiosOptions)) rest
          .ok (.getAxiosPromise (.obj params))
        else if method = "POST" then
          .ok (.getAxiosPromise (.obj (assign [("url", url), ("data", data)]
            (ownEntries axiosOptions))))
        else
          .ok (.getFetchJsonpPromise (.obj
            [("url", fullUrl),
              ("jsonpOptions", .obj (setField (assign [] (ownEntries jsonpOptions))
                "callbackName" callbackName))]))

/-- The method `_reqFn(arg)`: a throw of its own, or the outcome of the adapter it calls. -/
def _reqFn (d : Deps) (arg : Val) : Outcome :=
  match reqFnCall d arg with
  | .error e => .thrown e
  | .ok call => d.perform call

/-! ## The middleware pipeline: `_getMiddlewareFn` (lines 157-186) -/

/-- The client object `this`, as far as it is read outside the promise chain of
a call.  `this.defaultErrorData` is read while a call is in flight and is
therefore a cell of `World`. -/
structure TuaApi where
  host : Val
  reqType : Val
  middleware : List Middleware
  axiosOptions : Val
  jsonpOptions : Val

/-- The method `use(fn)`: append `fn` to the global middleware sequence and return the
client.  (The `typeof fn` test cannot fail here: `fn` is a function by its type.) -/
def TuaApi.use (self : TuaApi) (fn : Middleware) : TuaApi :=
  { self with middleware := self.middleware ++ [fn] }

/-- Modelled from the spec: `koaCompose` is the package koa-compose, which is
not among the sources.  Its composition invokes the middleware at index `i`
with a continuation that invokes index `i + 1` and settles after the whole
downstream tail has settled; past the last index the continuation resolves at
once; a middleware that throws yields a rejected promise.  (The guard of the
package against a second call of the same continuation is not modelled.) -/
def koaCompose : List Middleware → World → Settled
  | [], w => (w, .ok ())
  | fn :: fns, w => fn w (koaCompose fns)

/-- The read `ctx.req.reqFnParams`, the argument of `_reqFn`. -/
def reqFnParamsOf (w : World) : Except Val Val := getProp (getField w.ctx "req") "reqFnParams"

/-- Line 177, the callback `() => this._reqFn(ctx.req.reqFnParams)` of the first
`then`: the promise it yields is fulfilled with the value of the adapter, or
rejected with whatever is thrown or rejected on the way. -/
def callReqFn (d : Deps) (w : World) : Except Val Val :=
  match reqFnParamsOf w with
  | .error e => .error e
  | .ok reqFnParams =>
    match _reqFn d reqFnParams with
    | .resolved v => .ok v
    | .rejected e => .error e
    | .thrown e => .error e

/-- Lines 179-183, the handler of `catch`: a fulfilled promise passes through,
a rejection becomes the default error payload (a shallow copy) with the error. -/
def caught (w : World) (promised : Except Val Val) : Val :=
  match promised with
  | .ok v => v
  | .error error =>
    .obj [("data", .obj (assign [] (ownEntries w.defaultErrorData))), ("error", error)]

/-- The last element of the chain, lines 176-184:
`next().then(() => this._reqFn(ctx.req.reqFnParams)).catch(...).then(res => ctx.res = res)`.
A rejection of `next()` skips the first `then` and reaches the `catch`. -/
def dispatchStep (d : Deps) : Middleware := fun w next =>
  let w1 := (next w).1
  let promised : Except Val Val :=
    match (next w).2 with
    | .error e => .error e
    | .ok () => callReqFn d w1
  ({ w1 with ctx := setField w1.ctx "res" (caught w1 promised) }, .ok ())

/-- The array handed to `koaCompose` by `_getMiddlewareFn`. -/
def middlewareChain (d : Deps) (self : TuaApi) (middleware : List Middleware)
    (useGlobalMiddleware : Bool) : List Middleware :=
  let middlewareFns := if useGlobalMiddleware then self.middleware ++ middleware else middleware
  [d.recordStartTimeMiddleware, d.formatReqParamsMiddleware] ++ middlewareFns ++
    [d.updateFullUrlMiddleware, d.formatResDataMiddleware, d.recordReqTimeMiddleware,
      dispatchStep d]

/-- The method `_getMiddlewareFn(middleware, useGlobalMiddleware)`. -/
def _getMiddlewareFn (d : Deps) (self : TuaApi) (middleware : List Middleware)
    (useGlobalMiddleware : Bool) : World → Settled :=
  koaCompose (middlewareChain d self middleware useGlobalMiddleware)

/-! ## `_getOneReqMap` and the request function `apiFn` (lines 202-288) -/

/-- A pre-hook `beforeFn`.  It is called without arguments, so the context of
the call is out of its reach: `apiFn` installs the fresh context after it.
`Outcome` tells how `beforeFn().then` goes. -/
abbrev BeforeFn := World → World × Outcome

/-- A post-hook `afterFn`, called with `[ctx.res.data, ctx]` inside a `then`:
its value is dropped, only its state change and its failure count. -/
abbrev AfterFn := Val → World → Settled

/-- The parameter object of `_getOneReqMap`: the named properties (absent ones
are `none`) and `rest`, the other properties of the leaf.  A call reads the
leaf as it is at the time of the call; `leafAfter` gives the leaf a call
leaves behind. -/
structure ApiConfig where
  type : Option String
  name : Option String
  path : String
  params : Option Val
  prefix_ : String
  afterFn : Option AfterFn
  beforeFn : Option BeforeFn
  middleware : Option (List Middleware)
  useGlobalMiddleware : Option Bool
  rest : Obj

/-- The names bound by the parameter pattern of `_getOneReqMap`. -/
def oneReqNames : List String :=
  ["type", "name", "path", "params", "prefix", "afterFn", "beforeFn", "middleware",
    "useGlobalMiddleware"]

/-- The expression `x || y`. -/
def orElse (x y : Val) : Val := if truthy x then x else y

/-- Lines 219-226: the rest object after the global defaults are merged in. -/
def mergedRest (self : TuaApi) (c : ApiConfig) : Obj :=
  let rest := (dedupKeys [] c.rest).filter (fun kv => !(oneReqNames.contains kv.1))
  let rest := setField rest "host" (orElse (getField rest "host") self.host)
  let rest := setField rest "reqType" (orElse (getField rest "reqType") self.reqType)
  let rest := setField rest "axiosOptions"
    (if truthy (getField rest "axiosOptions") then
      .obj (assign (assign [] (ownEntries self.axiosOptions))
        (ownEntries (getField rest "axiosOptions")))
    else self.axiosOptions)
  let rest := setField rest "jsonpOptions"
    (if truthy (getField rest "jsonpOptions") then
      .obj (assign (assign [] (ownEntries self.jsonpOptions))
        (ownEntries (getField rest "jsonpOptions")))
    else self.jsonpOptions)
  rest

/-- The `reqType` a leaf ends up with (line 220): its own when that is truthy,
else that of the client. -/
def effectiveReqType (self : TuaApi) (c : ApiConfig) : Val :=
  orElse (getField c.rest "reqType") self.reqType

/-- Line 215: `apiName = name || path`. -/
def apiNameOf (c : ApiConfig) : String :=
  match c.name with
  | some name => if name != "" then name else c.path
  | none => c.path

/-- Line 216: the template literal that joins `prefix`, a slash and `path`. -/
def fullPathOf (c : ApiConfig) : String := c.prefix_ ++ "/" ++ c.path

/-- The declared params: `params = {}` when the leaf has none. -/
def paramsOf (c : ApiConfig) : Val := c.params.getD (.obj [])

/-- Line 244: the object `ctx.req` of a call. -/
def reqOf (self : TuaApi) (c : ApiConfig) (args callbackName : Val) : Obj :=
  assign
    [("args", args), ("type", .str (c.type.getD "get")), ("path", .str c.path),
      ("params", paramsOf c), ("prefix", .str c.prefix_), ("apiName", .str (apiNameOf c)),
      ("fullPath", .str (fullPathOf c)), ("callbackName", callbackName),
      ("reqFnParams", .obj [])]
    (mergedRest self c)

/-- Lines 243-245: the context of a call. -/
def mkCtx (self : TuaApi) (c : ApiConfig) (args callbackName : Val) : Obj :=
  [("req", .obj (reqOf self c args callbackName))]

/-- The assignment `target.k = v` (strict mode): a `TypeError` when `target`
is `undefined`, `null` or a primitive.  A named property stored on an array or
on an `Error` object is not kept by the value model. -/
def setProp (target : Val) (k : String) (v : Val) : Except Val Val :=
  match target with
  | .obj fields => .ok (.obj (setField fields k v))
  | .arr items => .ok (.arr items)
  | .error name message => .ok (.error name message)
  | _ => .error (typeError ("set " ++ k ++ " on a value that is not an object"))

/-- The default `rArgs = {}` of `beforeFnCallback`: it applies to `undefined` only. -/
def rArgsOf : Val → Val
  | .undefined => .obj []
  | v => v

/-- Lines 253-255: `if (rArgs.header) ctx.req.reqFnParams.header = rArgs.header`. -/
def storeHeader (rArgs : Val) (w : World) : Except Val World :=
  match getProp rArgs "header" with
  | .error e => .error e
  | .ok header =>
    if truthy header then
      match getProp (getField w.ctx "req") "reqFnParams" with
      | .error e => .error e
      | .ok reqFnParams =>
        match setProp reqFnParams "header" header with
        | .error e => .error e
        | .ok reqFnParams1 =>
          match setProp (getField w.ctx "req") "reqFnParams" reqFnParams1 with
          | .error e => .error e
          | .ok req => .ok { w with ctx := setField w.ctx "req" req }
    else .ok w

/-- Lines 251-268: `beforeFnCallback(rArgs = {})`, where `params` is the
declared params of the leaf.  Line 254 writes into the object
`ctx.req.reqFnParams` in place; line 260 rebinds `ctx.req.params`, which from
then on is no longer the declared params object. -/
def beforeFnCallback (params : Val) (r : Val) (w : World) : Settled :=
  match storeHeader (rArgsOf r) w with
  | .error e => (w, .error e)
  | .ok w1 =>
    if !(truthy (field (rArgsOf r) "params")) then (w1, .ok ())
    else
      let merged : Val :=
        if isArray params then field (rArgsOf r) "params"
        else .obj (assign (assign [] (ownEntries params))
          (ownEntries (field (rArgsOf r) "params")))
      match setProp (getField w1.ctx "req") "params" merged with
      | .error e => (w1, .error e)
      | .ok req =>
        ({ w1 with
            ctx := setField w1.ctx "req" req
            params := declaredParamsAt w1
            sharesParams := false }, .ok ())

/-- The default pre-hook `Promise.resolve.bind(Promise)`. -/
def defaultBeforeFn : BeforeFn := fun w => (w, .resolved .undefined)

/-- The default post-hook `([x]) => x`. -/
def defaultAfterFn : AfterFn := fun _ w => (w, .ok ())

/-- Line 248: the pipeline compiled for a call of the leaf `c`. -/
def middlewareFnOf (d : Deps) (self : TuaApi) (c : ApiConfig) : World → Settled :=
  _getMiddlewareFn d self (c.middleware.getD []) (c.useGlobalMiddleware.getD true)

/-- Lines 277-280: reject with `ctx.res.error` when it is truthy, else resolve
with `ctx.res.data`. -/
def settle (w : World) : World × Outcome :=
  match getProp (getField w.ctx "res") "error" with
  | .error e => (w, .rejected e)
  | .ok error =>
    if truthy error then (w, .rejected error)
    else (w, .resolved (field (getField w.ctx "res") "data"))

/-- Lines 236 and 240: `args = {}` when omitted, and `null` counts as `{}`. -/
def normArgs : Val → Val
  | .undefined => .obj []
  | .null => .obj []
  | a => a

/-- Line 237: the `callbackName` of the second argument, with its default
(the path followed by `Callback`) when the argument or the property is missing. -/
def callbackNameOf (c : ApiConfig) (options : Val) : Val :=
  let given : Val := match options with
    | .undefined => .undefined
    | o => field o "callbackName"
  match given with
  | .undefined => .str (c.path ++ "Callback")
  | v => v

/-- The state in which `beforeFnCallback` runs: the context is the fresh one of
this call, whatever the state held before.  Its `req.params` is the declared
params object of the leaf `c` itself, and its `req.reqFnParams` is the own
`reqFnParams` object of the leaf when the leaf has one (a fresh `{}` when not).
The leaf is read as it is when the call starts: a pre-hook that reaches an
object of the leaf by a reference of its own and writes into it is not
modelled. -/
def entryWorld (self0 : TuaApi) (c : ApiConfig) (args options : Val) (w : World) : World :=
  { w with
    ctx := mkCtx self0 c (normArgs args) (callbackNameOf c options)
    params := paramsOf c
    sharesParams := true
    ownBag := getField (mergedRest self0 c) "reqFnParams"
    sharesBag := ((mergedRest self0 c).lookup "reqFnParams").isSome }

/-- Lines 235-281: the request function `apiFn(args, options)` of a leaf, where
`self0` is the client when `getApi` ran, `self` the client at the time of the
call and `w` the state before the call. -/
def apiFn (d : Deps) (self0 self : TuaApi) (c : ApiConfig) (args options : Val)
    (w : World) : World × Outcome :=
  match options with
  | .null => (w, .thrown (typeError "destructure null"))
  | _ =>
    let middlewareFn := middlewareFnOf d self c
    match (c.beforeFn.getD defaultBeforeFn) w with
    | (w1, .thrown e) => (w1, .thrown e)
    | (w1, .rejected e) => (w1, .rejected e)
    | (w1, .resolved r) =>
      match beforeFnCallback (paramsOf c) r (entryWorld self0 c args options w1) with
      | (w2, .error e) => (w2, .rejected e)
      | (w2, .ok ()) =>
        match middlewareFn w2 with
        | (w3, .error e) => (w3, .rejected e)
        | (w3, .ok ()) =>
          match getProp (getField w3.ctx "res") "data" with
          | .error e => (w3, .rejected e)
          | .ok data =>
            match (c.afterFn.getD defaultAfterFn) data w3 with
            | (w4, .error e) => (w4, .rejected e)
            | (w4, .ok ()) => settle w4

/-- The function object `apiFn` with the two properties attached at lines 284-285. -/
structure ApiFn where
  key : Val
  params : Val
  call : TuaApi → Val → Val → World → World × Outcome

/-- The leaf after a call that ended in the state `w`: its declared params
object and its own `reqFnParams` object, if it has one, are as the call left
them. -/
def leafAfter (c : ApiConfig) (w : World) : ApiConfig :=
  { c with
    params := some (declaredParamsAt w)
    rest := if (c.rest.lookup "reqFnParams").isSome
      then setField c.rest "reqFnParams" (ownBagAt w) else c.rest }

/-- One call of a request function: the client at the time of the call and
the two arguments. -/
structure CallInput where
  self : TuaApi
  args : Val
  options : Val

/-- A sequence of calls of the request function of a leaf: each call starts
with the leaf and in the state that the previous one left. -/
def callSeq (d : Deps) (self0 : TuaApi) : List CallInput → ApiConfig × World → ApiConfig × World
  | [], s => s
  | i :: calls, s =>
    callSeq d self0 calls
      (leafAfter s.1 (apiFn d self0 i.self s.1 i.args i.options s.2).1,
        (apiFn d self0 i.self s.1 i.args i.options s.2).1)

/-- The method `_getOneReqMap`: the one-entry map from `apiName` to the request
function. -/
def _getOneReqMap (d : Deps) (self : TuaApi) (c : ApiConfig) : List (String × ApiFn) :=
  [(apiNameOf c,
    { key := .str (fullPathOf c)
      params := paramsOf c
      call := fun selfNow args options w => apiFn d self selfNow c args options w })]

/-- The keys of a property list. -/
def keysOf (o : Obj) : List String := o.map Prod.fst

/-! ## Middlewares of the onion shape -/

/-- The two parts `(before, after)` of a middleware `before; await next(); after`. -/
abbrev Parts := (World → World) × (World → World)

/-- The middleware `async (ctx, next) => { before; await next(); after }` whose
two parts do not throw: when the continuation rejects, so does the middleware,
and `after` does not run. -/
def onion (p : Parts) : Middleware := fun w next =>
  match next (p.1 w) with
  | (w1, .ok ()) => (p.2 w1, .ok ())
  | (w1, .error e) => (w1, .error e)

/-- All the `before` parts, in chain order. -/
def beforeAll (ps : List Parts) (w : World) : World :=
  ps.foldl (fun acc p => p.1 acc) w

/-- All the `after` parts, in reverse chain order: that of the last middleware
runs first. -/
def afterAll (ps : List Parts) (w : World) : World :=
  ps.foldr (fun p acc => p.2 acc) w

/-- The parts of the five framing middlewares. -/
structure FramingParts where
  recordStartTime : Parts
  formatReqParams : Parts
  updateFullUrl : Parts
  formatResData : Parts
  recordReqTime : Parts

/-- The framing middlewares of `d` have the onion shape, with the parts `f`. -/
def Deps.framedBy (d : Deps) (f : FramingParts) : Prop :=
  d.recordStartTimeMiddleware = onion f.recordStartTime ∧
  d.formatReqParamsMiddleware = onion f.formatReqParams ∧
  d.updateFullUrlMiddleware = onion f.updateFullUrl ∧
  d.formatResDataMiddleware = onion f.formatResData ∧
  d.recordReqTimeMiddleware = onion f.recordReqTime

/-- The parts of the whole chain before the dispatch step, for the user
middlewares `users`. -/
def chainParts (f : FramingParts) (users : List Parts) : List Parts :=
  [f.recordStartTime, f.formatReqParams] ++ users ++
    [f.updateFullUrl, f.formatResData, f.recordReqTime]

/-- The dispatch step run as the last element of a chain: its continuation
resolves at once. -/
def dispatched (d : Deps) (w : World) : World := (dispatchStep d w (koaCompose [])).1

/-- The value of `ctx.res`. -/
def resOf (w : World) : Val := getField w.ctx "res"

/-- The read `ctx.res.error`, a `TypeError` when `ctx.res` is `undefined` or `null`. -/
def resError (w : World) : Except Val Val := getProp (resOf w) "error"

/-- A value other than `undefined` and `null`: its properties can be read. -/
def isDefined : Val → Bool
  | .undefined => false
  | .null => false
  | _ => true

/-- The params a call carries into the pipeline, from the declared params and
the value `r` of the pre-hook (lines 257-267). -/
def mergeParams (params r : Val) : Val :=
  if !(truthy (field (rArgsOf r) "params")) then params
  else if isArray params then field (rArgsOf r) "params"
  else .obj (assign (assign [] (ownEntries params)) (ownEntries (field (rArgsOf r) "params")))

/-- Lines 284-285, `apiFn.key = fullPath` and `apiFn.params = params`: the
state in which `_getOneReqMap` returns. -/
def attachKeyAndParams (c : ApiConfig) (w : World) : World :=
  { w with
    key := .str (fullPathOf c)
    fnParams := none
    params := paramsOf c
    sharesParams := false }

/-- What the caller sees of the request function in a state: the properties
`apiFn.key` and `apiFn.params`, and the declared params object. -/
structure LeafView where
  key : Val
  fnParams : Val
  params : Val

/-- The view of the request function in the state `w`. -/
def leafView (w : World) : LeafView := ⟨w.key, fnParamsAt w, declaredParamsAt w⟩

/-- A computation that assigns neither `apiFn.key` nor `apiFn.params` and does
not write into the declared params object. -/
def KeepsLeaf {α : Type} (f : World → World × α) : Prop :=
  ∀ w, leafView (f w).1 = leafView w

/-- A middleware that leaves the view of the request function as it is,
provided its continuation does. -/
def MiddlewareKeepsLeaf (m : Middleware) : Prop :=
  ∀ next, KeepsLeaf next → KeepsLeaf (fun w => m w next)

/-- The five framing middlewares leave the view of the request function as it is. -/
def Deps.keepsLeaf (d : Deps) : Prop :=
  MiddlewareKeepsLeaf d.recordStartTimeMiddleware ∧
  MiddlewareKeepsLeaf d.formatReqParamsMiddleware ∧
  MiddlewareKeepsLeaf d.updateFullUrlMiddleware ∧
  MiddlewareKeepsLeaf d.formatResDataMiddleware ∧
  MiddlewareKeepsLeaf d.recordReqTimeMiddleware

/-! ## A sample environment -/

/-- Upper case of the letters `a` to `z`: `toUpperCase` on ASCII strings. -/
def asciiUpper (s : String) : String := String.mk (s.data.map Char.toUpper)

/-- Modelled from the spec: the framing middlewares of `./middlewareFns`, which
is not among the sources, reduced to the side effects section 6 of the spec
allows them: stamp `ctx.startTime`; copy the arguments to `ctx.req.reqParams`;
rebind `ctx.req.reqFnParams` to a new bag filled from `ctx.req`; after the request, turn a
two-element array in `ctx.res.data` into an object; stamp `ctx.endTime` and
`ctx.reqTime`. -/
def sampleFraming : FramingParts where
  recordStartTime := (fun w => { w with ctx := setField w.ctx "startTime" (.num 1) }, id)
  formatReqParams := (fun w =>
    let req := getField w.ctx "req"
    match setProp req "reqParams" (field req "args") with
    | .ok req1 => { w with ctx := setField w.ctx "req" req1 }
    | .error _ => w, id)
  updateFullUrl := (fun w =>
    let req := getField w.ctx "req"
    let bag : Obj := assign
      [("url", field req "path"), ("fullUrl", field req "fullPath"),
        ("type", field req "type"), ("reqType", field req "reqType"),
        ("reqParams", field req "reqParams"), ("callbackName", field req "callbackName"),
        ("axiosOptions", field req "axiosOptions"), ("jsonpOptions", field req "jsonpOptions")]
      (ownEntries (field req "reqFnParams"))
    match setProp req "reqFnParams" (.obj bag) with
    | .ok req1 =>
      { w with ctx := setField w.ctx "req" req1, ownBag := ownBagAt w, sharesBag := false }
    | .error _ => w, id)
  formatResData := (id, fun w =>
    match field (resOf w) "data" with
    | .arr [code, data] =>
      match setProp (resOf w) "data" (.obj [("code", code), ("data", data)]) with
      | .ok res => { w with ctx := setField w.ctx "res" res }
      | .error _ => w
    | _ => w)
  recordReqTime := (id, fun w =>
    { w with ctx := setField (setField w.ctx "endTime" (.num 2)) "reqTime" (.num 1) })

/-- Modelled from the spec: a sample environment.  `VALID_REQ_TYPES` follows
section 4.2 of the spec (platform, HTTP, JSONP, automatic); every adapter ends
with `out`. -/
def sampleDeps (out : Outcome) : Deps where
  VALID_REQ_TYPES := ["wx", "axios", "jsonp", "auto"]
  toUpperCase := asciiUpper
  getWxPromise := fun _ => out
  getAxiosPromise := fun _ => out
  getFetchJsonpPromise := fun _ => out
  recordStartTimeMiddleware := onion sampleFraming.recordStartTime
  formatReqParamsMiddleware := onion sampleFraming.formatReqParams
  updateFullUrlMiddleware := onion sampleFraming.updateFullUrl
  formatResDataMiddleware := onion sampleFraming.formatResData
  recordReqTimeMiddleware := onion sampleFraming.recordReqTime

/-- A sample client: platform requests, no global middleware. -/
def sampleClient : TuaApi where
  host := .str "https://example.com"
  reqType := .str "wx"
  middleware := []
  axiosOptions := .obj []
  jsonpOptions := .obj []

/-- A sample leaf: only `path` and `prefix` are given. -/
def sampleLeaf : ApiConfig where
  type := none
  name := none
  path := "list"
  params := none
  prefix_ := "api"
  afterFn := none
  beforeFn := none
  middleware := none
  useGlobalMiddleware := none
  rest := []

/-- A sample state before a call: the default error payload of the constructor. -/
def sampleWorld : World where
  ctx := []
  defaultErrorData := .obj [("code", .num 999), ("msg", .str "error")]
  key := .str "api/list"
  fnParams := none
  params := .obj []
  sharesParams := false
  ownBag := .undefined
  sharesBag := false

/-- A pre-hook that resolves with `null`. -/
def nullHook : BeforeFn := fun w => (w, .resolved .null)

/-- A pre-hook that resolves with params and a header. -/
def paramsHook : BeforeFn :=
  fun w => (w, .resolved (.obj [("params", .obj [("b", .num 2)]), ("header", .str "h")]))

/-- A pre-hook that resolves with a header. -/
def headerHook : BeforeFn := fun w => (w, .resolved (.obj [("header", .str "h")]))

/-- A user middleware that writes into the object `ctx.req.params` in place:
`ctx.req.params.injected = 1; await next()`. -/
def injectParams : Parts :=
  (fun w =>
    let req := getField w.ctx "req"
    match setProp (field req "params") "injected" (.num 1) with
    | .error _ => w
    | .ok params =>
      match setProp req "params" params with
      | .error _ => w
      | .ok req1 => { w with ctx := setField w.ctx "req" req1 },
    id)

/-- A user middleware that returns without calling its continuation. -/
def skipNext : Middleware := fun w _ => (w, .ok ())

/-- A sample argument of `_reqFn`. -/
def sampleReq (reqType type : String) : Obj :=
  [("url", .str "/list"), ("type", .str type), ("fullUrl", .str "/list?a=1"),
    ("reqType", .str reqType), ("reqParams", .obj [("a", .num 1)]),
    ("callbackName", .str "listCallback"),
    ("jsonpOptions", .obj [("callbackName", .str "own"), ("timeout", .num 5)]),
    ("axiosOptions", .obj [("timeout", .num 9), ("header", .str "h0")]),
    ("header", .str "h1")]

/-- A sample state at the dispatch step: `ctx.req.reqFnParams` is a platform
request. -/
def sampleDispatchWorld : World :=
  { sampleWorld with
    ctx := [("req", .obj [("reqFnParams", .obj (sampleReq "wx" "get"))])] }

/-- A sample state at the start of the pipeline: the context of a call of
`sampleLeaf` without arguments. -/
def samplePipelineWorld : World :=
  entryWorld sampleClient sampleLeaf .undefined .undefined sampleWorld

/-- The argument of `_reqFn` that the sample framing builds for a call of
`sampleLeaf` with the arguments `args`, when the leaf ends up with `reqType`. -/
def sampleBag (reqType : String) (args : Val) : Val :=
  .obj [("url", .str "list"), ("fullUrl", .str "api/list"), ("type", .str "get"),
    ("reqType", .str reqType), ("reqParams", args), ("callbackName", .str "listCallback"),
    ("axiosOptions", .obj []), ("jsonpOptions", .obj [])]

/-- A user middleware that counts its invocations in `ctx.calls`. -/
def countCalls : Parts :=
  (fun w =>
    let calls : Val := match getField w.ctx "calls" with
      | .num n => .num (n + 1)
      | _ => .num 1
    { w with ctx := setField w.ctx "calls" calls },
    id)

/-! ## Property lists: lookups after `setField`, `assign`, `dedupKeys` -/

theorem lookup_cons_eq (k k' : String) (v : Val) (o : Obj) :
    List.lookup k ((k', v) :: o) = if k = k' then some v else List.lookup k o := by
  by_cases h : k = k'
  · subst h; simp [List.lookup]
  · have hb : (k == k') = false := by simpa using h
    simp [List.lookup, hb, h]

theorem lookup_setField (o : Obj) (k k' : String) (v : Val) :
    (setField o k' v).lookup k = if k = k' then some v else o.lookup k := by
  induction o with
  | nil => simp [setField, lookup_cons_eq]
  | cons p o ih =>
    obtain ⟨k1, v1⟩ := p
    by_cases h1 : k1 = k'
    · subst h1
      by_cases h : k = k1 <;> simp [setField, lookup_cons_eq, h]
    · by_cases h : k = k'
      · subst h
        have : ¬ k = k1 := fun e => h1 e.symm
        simp [setField, lookup_cons_eq, h1, ih, this]
      · simp [setField, lookup_cons_eq, h1, ih, h]

theorem getField_setField (o : Obj) (k k' : String) (v : Val) :
    getField (setField o k' v) k = if k = k' then v else getField o k := by
  unfold getField
  rw [lookup_setField]
  by_cases h : k = k' <;> simp [h]

theorem getField_setField_self (o : Obj) (k : String) (v : Val) :
    getField (setField o k v) k = v := by
  simp [getField_setField]

theorem lookup_eq_none_of_not_mem_keys (o : Obj) (k : String) (h : k ∉ keysOf o) :
    o.lookup k = none := by
  induction o with
  | nil => rfl
  | cons p o ih =>
    obtain ⟨k1, v1⟩ := p
    simp only [keysOf, List.map_cons, List.mem_cons, not_or] at h
    rw [lookup_cons_eq, if_neg h.1]
    exact ih h.2

theorem mem_keys_dedupKeys (seen : List String) (o : Obj) (x : String)
    (hx : x ∈ keysOf (dedupKeys seen o)) : x ∉ seen ∧ x ∈ keysOf o := by
  induction o generalizing seen with
  | nil => simp [dedupKeys, keysOf] at hx
  | cons p o ih =>
    obtain ⟨k1, v1⟩ := p
    by_cases h1 : k1 ∈ seen
    · simp only [dedupKeys, h1, if_true] at hx
      have := ih seen hx
      exact ⟨this.1, by simp only [keysOf, List.map_cons, List.mem_cons]; exact Or.inr this.2⟩
    · simp only [dedupKeys, h1, if_false, keysOf, List.map_cons, List.mem_cons] at hx
      rcases hx with hx | hx
      · subst hx
        exact ⟨h1, by simp [keysOf]⟩
      · have := ih (k1 :: seen) hx
        simp only [List.mem_cons, not_or] at this
        exact ⟨this.1.2, by simp only [keysOf, List.map_cons, List.mem_cons]; exact Or.inr this.2⟩

theorem nodup_keys_dedupKeys (seen : List String) (o : Obj) :
    (keysOf (dedupKeys seen o)).Nodup := by
  induction o generalizing seen with
  | nil => simp [dedupKeys, keysOf]
  | cons p o ih =>
    obtain ⟨k1, v1⟩ := p
    by_cases h1 : k1 ∈ seen
    · simp only [dedupKeys, h1, if_true]
      exact ih seen
    · simp only [dedupKeys, h1, if_false, keysOf, List.map_cons, List.nodup_cons]
      refine ⟨?_, ih (k1 :: seen)⟩
      intro hmem
      have := (mem_keys_dedupKeys (k1 :: seen) o k1 hmem).1
      exact this (List.mem_cons_self _ _)

theorem lookup_dedupKeys (seen : List String) (o : Obj) (k : String) :
    (dedupKeys seen o).lookup k = if k ∈ seen then none else o.lookup k := by
  induction o generalizing seen with
  | nil => simp [dedupKeys]
  | cons p o ih =>
    obtain ⟨k1, v1⟩ := p
    by_cases h1 : k1 ∈ seen
    · simp only [dedupKeys, h1, if_true, ih, lookup_cons_eq]
      by_cases hk : k ∈ seen
      · simp [hk]
      · have : ¬ k = k1 := fun e => hk (e ▸ h1)
        simp [hk, this]
    · simp only [dedupKeys, h1, if_false, lookup_cons_eq, ih, List.mem_cons]
      by_cases hk : k = k1
      · subst hk; simp [h1]
      · simp [hk]

theorem lookup_dedupKeys_nil (o : Obj) (k : String) :
    (dedupKeys [] o).lookup k = o.lookup k := by
  simp [lookup_dedupKeys]

theorem nodup_keys_ownEntries (v : Val) : (keysOf (ownEntries v)).Nodup := by
  cases v <;> first
    | exact nodup_keys_dedupKeys _ _
    | simp [ownEntries, keysOf]

theorem lookup_assign (target src : Obj) (k : String) (h : (keysOf src).Nodup) :
    (assign target src).lookup k = (src.lookup k).or (target.lookup k) := by
  induction src generalizing target with
  | nil => simp [assign]
  | cons p src ih =>
    obtain ⟨k1, v1⟩ := p
    simp only [keysOf, List.map_cons, List.nodup_cons] at h
    have ih1 := ih (setField target k1 v1) h.2
    simp only [assign, List.foldl_cons] at ih1 ⊢
    rw [ih1, lookup_cons_eq, lookup_setField]
    by_cases hk : k = k1
    · subst hk
      rw [lookup_eq_none_of_not_mem_keys src k h.1]
      simp
    · simp [hk]

theorem filter_dedupKeys_setField (seen : List String) (fs : Obj) (k : String) (v : Val)
    (p : String → Bool) (hp : p k = false) :
    (dedupKeys seen (setField fs k v)).filter (fun kv => p kv.1)
      = (dedupKeys seen fs).filter (fun kv => p kv.1) := by
  induction fs generalizing seen with
  | nil =>
    by_cases hs : k ∈ seen <;> simp [setField, dedupKeys, hs, hp]
  | cons q fs ih =>
    obtain ⟨k1, v1⟩ := q
    by_cases h1 : k1 = k
    · subst h1
      by_cases hs : k1 ∈ seen <;> simp [setField, dedupKeys, hs, hp]
    · by_cases hs : k1 ∈ seen
      · simp [setField, dedupKeys, hs, h1, ih]
      · simp only [setField, dedupKeys, hs, h1, if_false, List.filter_cons, ih]

theorem lookup_filter_keys (o : Obj) (p : String → Bool) (k : String) :
    (o.filter (fun kv => p kv.1)).lookup k = if p k then o.lookup k else none := by
  induction o with
  | nil => simp
  | cons q o ih =>
    obtain ⟨k1, v1⟩ := q
    by_cases h1 : p k1
    · simp only [List.filter_cons, h1, if_true, lookup_cons_eq, ih]
      by_cases hk : k = k1
      · subst hk; simp [h1]
      · simp [hk]
    · have hf : List.filter (fun kv => p kv.1) ((k1, v1) :: o)
          = List.filter (fun kv => p kv.1) o := by
        simp [List.filter_cons, h1]
      rw [hf, ih, lookup_cons_eq]
      by_cases hk : k = k1
      · subst hk; simp [h1]
      · simp [hk]

theorem nodup_keys_filter (o : Obj) (p : String × Val → Bool) (h : (keysOf o).Nodup) :
    (keysOf (o.filter p)).Nodup := by
  unfold keysOf at *
  exact (List.Nodup.sublist ((List.filter_sublist o).map Prod.fst) h)

theorem nodup_keys_restOf (v : Val) (names : List String) :
    (keysOf (restOf v names)).Nodup :=
  nodup_keys_filter _ _ (nodup_keys_ownEntries v)

theorem restOf_setField (fs : Obj) (k : String) (v : Val) (names : List String)
    (hk : k ∈ names) :
    restOf (.obj (setField fs k v)) names = restOf (.obj fs) names := by
  unfold restOf ownEntries
  exact filter_dedupKeys_setField [] fs k v (fun x => !(names.contains x)) (by simp [hk])

theorem isValidReqType_str (d : Deps) (rt : String) :
    isValidReqType d (.str rt) = true ↔ rt ∈ d.VALID_REQ_TYPES := by
  simp [isValidReqType]

/-! ## Transport selection -/

/-- The value of `reqFnCall` on an object whose `reqType` is valid and whose
`type` is a string. -/
theorem reqFnCall_eq (d : Deps) (fs : Obj) (rt t : String)
    (hrt : getField fs "reqType" = .str rt) (hvalid : rt ∈ d.VALID_REQ_TYPES)
    (ht : getField fs "type" = .str t) :
    reqFnCall d (.obj fs) =
      if strictEqStr (.str rt) "wx" then
        .ok (.getWxPromise (.obj (assign
          [("url", getField fs "url"), ("fullUrl", getField fs "fullUrl"),
            ("data", getField fs "reqParams"), ("method", .str (d.toUpperCase t))]
          (restOf (.obj fs) reqFnNames))))
      else if strictEqStr (.str rt) "axios" then
        .ok (.getAxiosPromise (.obj (assign (assign
          [("url", if d.toUpperCase t = "GET" then getField fs "fullUrl" else getField fs "url"),
            ("data", getField fs "reqParams"), ("method", .str (d.toUpperCase t))]
          (ownEntries (getField fs "axiosOptions"))) (restOf (.obj fs) reqFnNames))))
      else if d.toUpperCase t = "POST" then
        .ok (.getAxiosPromise (.obj (assign
          [("url", getField fs "url"), ("data", getField fs "reqParams")]
          (ownEntries (getField fs "axiosOptions")))))
      else
        .ok (.getFetchJsonpPromise (.obj
          [("url", getField fs "fullUrl"),
            ("jsonpOptions", .obj (setField (assign [] (ownEntries (getField fs "jsonpOptions")))
              "callbackName" (getField fs "callbackName")))])) := by
  have hv : isValidReqType d (Val.str rt) = true := (isValidReqType_str d rt).2 hvalid
  simp [reqFnCall, field, hrt, ht, hv, callToUpperCase]

/-- Claim C5, transport selection in `_reqFn`: on a request whose `reqType` is
in `VALID_REQ_TYPES` and whose `type` is a string, `_reqFn` is the outcome of
exactly one adapter call.  For `wx` it is the outcome of `getWxPromise` on the
four named fields overlaid by the passthrough fields; for `axios` it is that of
`getAxiosPromise` on `url` (the full url when the uppercased method is `GET`),
`data`, `method`, overlaid by the axios options and then by the passthrough
fields, so that a passthrough field wins over an axios option; otherwise it is
that of `getAxiosPromise` on `url`, `data` and the axios options when the
uppercased method is `POST`, and else that of `getFetchJsonpPromise` on the
full url and the jsonp options with `callbackName` set to that of the call.
Two spellings of `type` with the same upper case give the same call and the
same outcome. -/
theorem reqFn_selects_one_transport (d : Deps) (fs : Obj) (rt t : String)
    (hrt : getField fs "reqType" = .str rt) (hvalid : rt ∈ d.VALID_REQ_TYPES)
    (ht : getField fs "type" = .str t) :
    (∃ call, reqFnCall d (.obj fs) = .ok call ∧ _reqFn d (.obj fs) = d.perform call) ∧
    (rt = "wx" → ∃ o,
      reqFnCall d (.obj fs) = .ok (.getWxPromise (.obj o)) ∧
      _reqFn d (.obj fs) = d.getWxPromise (.obj o) ∧
      ∀ k, o.lookup k =
        ((restOf (.obj fs) reqFnNames).lookup k).or
          (List.lookup k [("url", getField fs "url"), ("fullUrl", getField fs "fullUrl"),
            ("data", getField fs "reqParams"), ("method", Val.str (d.toUpperCase t))])) ∧
    (rt = "axios" → ∃ o,
      reqFnCall d (.obj fs) = .ok (.getAxiosPromise (.obj o)) ∧
      _reqFn d (.obj fs) = d.getAxiosPromise (.obj o) ∧
      ∀ k, o.lookup k =
        ((restOf (.obj fs) reqFnNames).lookup k).or
          (((ownEntries (getField fs "axiosOptions")).lookup k).or
            (List.lookup k
              [("url", if d.toUpperCase t = "GET" then getField fs "fullUrl"
                  else getField fs "url"),
                ("data", getField fs "reqParams"), ("method", Val.str (d.toUpperCase t))]))) ∧
    (rt ≠ "wx" → rt ≠ "axios" → d.toUpperCase t = "POST" → ∃ o,
      reqFnCall d (.obj fs) = .ok (.getAxiosPromise (.obj o)) ∧
      _reqFn d (.obj fs) = d.getAxiosPromise (.obj o) ∧
      ∀ k, o.lookup k =
        ((ownEntries (getField fs "axiosOptions")).lookup k).or
          (List.lookup k [("url", getField fs "url"), ("data", getField fs "reqParams")])) ∧
    (rt ≠ "wx" → rt ≠ "axios" → d.toUpperCase t ≠ "POST" → ∃ jo,
      reqFnCall d (.obj fs) = .ok (.getFetchJsonpPromise
        (.obj [("url", getField fs "fullUrl"), ("jsonpOptions", .obj jo)])) ∧
      _reqFn d (.obj fs) = d.getFetchJsonpPromise
        (.obj [("url", getField fs "fullUrl"), ("jsonpOptions", .obj jo)]) ∧
      ∀ k, jo.lookup k =
        if k = "callbackName" then some (getField fs "callbackName")
        else (ownEntries (getField fs "jsonpOptions")).lookup k) ∧
    (∀ t', d.toUpperCase t' = d.toUpperCase t →
      reqFnCall d (.obj (setField fs "type" (.str t'))) = reqFnCall d (.obj fs) ∧
      _reqFn d (.obj (setField fs "type" (.str t'))) = _reqFn d (.obj fs)) := by
  have hcall := reqFnCall_eq d fs rt t hrt hvalid ht
  have hout : ∀ call, reqFnCall d (.obj fs) = .ok call → _reqFn d (.obj fs) = d.perform call := by
    intro call h
    unfold _reqFn
    rw [h]
  refine ⟨?_, ?_, ?_, ?_, ?_, ?_⟩
  · unfold _reqFn
    rw [hcall]
    by_cases h1 : strictEqStr (.str rt) "wx" = true
    · simp [h1]
    · by_cases h2 : strictEqStr (.str rt) "axios" = true
      · simp [h1, h2]
      · by_cases h3 : d.toUpperCase t = "POST" <;> simp [h1, h2, h3]
  · intro h
    subst h
    have hc : reqFnCall d (.obj fs) = .ok (.getWxPromise (.obj (assign
          [("url", getField fs "url"), ("fullUrl", getField fs "fullUrl"),
            ("data", getField fs "reqParams"), ("method", .str (d.toUpperCase t))]
          (restOf (.obj fs) reqFnNames)))) := by
      rw [hcall]; simp [strictEqStr]
    refine ⟨_, hc, hout _ hc, ?_⟩
    intro k
    rw [lookup_assign _ _ _ (nodup_keys_restOf _ _)]
  · intro h
    subst h
    have hc : reqFnCall d (.obj fs) = .ok (.getAxiosPromise (.obj (assign (assign
          [("url", if d.toUpperCase t = "GET" then getField fs "fullUrl" else getField fs "url"),
            ("data", getField fs "reqParams"), ("method", .str (d.toUpperCase t))]
          (ownEntries (getField fs "axiosOptions"))) (restOf (.obj fs) reqFnNames)))) := by
      rw [hcall]; simp [strictEqStr]
    refine ⟨_, hc, hout _ hc, ?_⟩
    intro k
    rw [lookup_assign _ _ _ (nodup_keys_restOf _ _),
      lookup_assign _ _ _ (nodup_keys_ownEntries _)]
  · intro h1 h2 h3
    have hc : reqFnCall d (.obj fs) = .ok (.getAxiosPromise (.obj
        (assign [("url", getField fs "url"), ("data", getField fs "reqParams")]
          (ownEntries (getField fs "axiosOptions"))))) := by
      rw [hcall]; simp [strictEqStr, h1, h2, h3]
    refine ⟨_, hc, hout _ hc, ?_⟩
    intro k
    rw [lookup_assign _ _ _ (nodup_keys_ownEntries _)]
  · intro h1 h2 h3
    have hc : reqFnCall d (.obj fs) = .ok (.getFetchJsonpPromise (.obj
        [("url", getField fs "fullUrl"),
          ("jsonpOptions", .obj (setField (assign [] (ownEntries (getField fs "jsonpOptions")))
            "callbackName" (getField fs "callbackName")))])) := by
      rw [hcall]; simp [strictEqStr, h1, h2, h3]
    refine ⟨_, hc, hout _ hc, ?_⟩
    intro k
    rw [lookup_setField, lookup_assign _ _ _ (nodup_keys_ownEntries _)]
    by_cases hk : k = "callbackName"
    · simp [hk]
    · simp [hk]
  · intro t' ht'
    have hrt' : getField (setField fs "type" (.str t')) "reqType" = .str rt := by
      rw [getField_setField, if_neg (by decide), hrt]
    have ht2 : getField (setField fs "type" (.str t')) "type" = .str t' :=
      getField_setField_self _ _ _
    have heq : reqFnCall d (.obj (setField fs "type" (.str t'))) = reqFnCall d (.obj fs) := by
      rw [hcall, reqFnCall_eq d _ rt t' hrt' hvalid ht2,
        restOf_setField fs "type" _ _ (by decide), ht']
      simp [getField_setField]
    refine ⟨heq, ?_⟩
    unfold _reqFn
    rw [heq]

/-- An instance of claim C5: an `axios` request of type `get` in the sample
environment is the outcome of the one call of `getAxiosPromise` on the full
url, with the method in upper case, and with the passthrough `header` in place
of the one of the axios options. -/
theorem reqFn_selects_one_transport_witness :
    (getField (sampleReq "axios" "get") "reqType" = .str "axios" ∧
      "axios" ∈ (sampleDeps (.resolved .null)).VALID_REQ_TYPES ∧
      getField (sampleReq "axios" "get") "type" = .str "get") ∧
    (∃ o, reqFnCall (sampleDeps (.resolved .null)) (.obj (sampleReq "axios" "get"))
        = .ok (.getAxiosPromise (.obj o)) ∧
      _reqFn (sampleDeps (.resolved .null)) (.obj (sampleReq "axios" "get"))
        = (sampleDeps (.resolved .null)).getAxiosPromise (.obj o)) ∧
    reqFnCall (sampleDeps (.resolved .null)) (.obj (sampleReq "axios" "get")) =
      .ok (.getAxiosPromise (.obj
        [("url", .str "/list?a=1"), ("data", .obj [("a", .num 1)]), ("method", .str "GET"),
          ("timeout", .num 9), ("header", .str "h1")])) :=
  ⟨⟨rfl, by decide, rfl⟩,
    (by
      obtain ⟨o, h1, h2, -⟩ := (reqFn_selects_one_transport (sampleDeps (.resolved .null))
        (sampleReq "axios" "get") "axios" "get" rfl (by decide) rfl).2.2.1 rfl
      exact ⟨o, h1, h2⟩),
    rfl⟩

/-! ## The pipeline -/

theorem onion_apply (p : Parts) (w : World) (next : World → Settled) :
    onion p w next =
      match next (p.1 w) with
      | (w1, .ok ()) => (p.2 w1, .ok ())
      | (w1, .error e) => (w1, .error e) := rfl

theorem koaCompose_onion (ps : List Parts) (tail : List Middleware) (w : World) :
    koaCompose (ps.map onion ++ tail) w =
      match koaCompose tail (beforeAll ps w) with
      | (w1, .ok ()) => (afterAll ps w1, .ok ())
      | (w1, .error e) => (w1, .error e) := by
  induction ps generalizing w with
  | nil =>
    simp only [List.map_nil, List.nil_append, beforeAll, afterAll, List.foldl_nil, List.foldr_nil]
    rcases koaCompose tail w with ⟨w1, r⟩
    cases r <;> rfl
  | cons p ps ih =>
    have hstep : koaCompose (onion p :: (ps.map onion ++ tail)) w
        = onion p w (koaCompose (ps.map onion ++ tail)) := rfl
    have hb : beforeAll (p :: ps) w = beforeAll ps (p.1 w) := rfl
    rw [List.map_cons, List.cons_append, hstep, hb]
    rw [onion_apply, ih]
    rcases koaCompose tail (beforeAll ps (p.1 w)) with ⟨w1, r⟩
    cases r <;> rfl

theorem koaCompose_dispatch (d : Deps) (w : World) :
    koaCompose [dispatchStep d] w = (dispatched d w, .ok ()) := rfl

theorem middlewareChain_onion (d : Deps) (f : FramingParts) (self : TuaApi)
    (middleware : List Middleware) (useGlobalMiddleware : Bool)
    (gs ls : List Parts) (hd : d.framedBy f) (hg : self.middleware = gs.map onion)
    (hl : middleware = ls.map onion) :
    middlewareChain d self middleware useGlobalMiddleware =
      (chainParts f (if useGlobalMiddleware then gs ++ ls else ls)).map onion
        ++ [dispatchStep d] := by
  obtain ⟨h1, h2, h3, h4, h5⟩ := hd
  cases useGlobalMiddleware <;>
    simp [middlewareChain, chainParts, h1, h2, h3, h4, h5, hg, hl]

theorem getMiddlewareFn_onion (d : Deps) (f : FramingParts) (self : TuaApi)
    (middleware : List Middleware) (useGlobalMiddleware : Bool)
    (gs ls : List Parts) (hd : d.framedBy f) (hg : self.middleware = gs.map onion)
    (hl : middleware = ls.map onion) (w : World) :
    _getMiddlewareFn d self middleware useGlobalMiddleware w =
      (afterAll (chainParts f (if useGlobalMiddleware then gs ++ ls else ls))
        (dispatched d (beforeAll (chainParts f (if useGlobalMiddleware then gs ++ ls else ls)) w)),
        .ok ()) := by
  unfold _getMiddlewareFn
  rw [middlewareChain_onion d f self middleware useGlobalMiddleware gs ls hd hg hl,
    koaCompose_onion, koaCompose_dispatch]

theorem lookup_spread_copy (v : Val) (k : String) :
    (assign [] (ownEntries v)).lookup k = (ownEntries v).lookup k := by
  rw [lookup_assign _ _ _ (nodup_keys_ownEntries v)]
  simp

theorem dispatchStep_terminal (d : Deps) (w : World) :
    dispatchStep d w (koaCompose []) =
      ({ w with ctx := setField w.ctx "res" (caught w (callReqFn d w)) }, .ok ()) := rfl

theorem callReqFn_of_ok (d : Deps) (w : World) (arg : Val) (harg : reqFnParamsOf w = .ok arg) :
    callReqFn d w =
      match _reqFn d arg with
      | .resolved v => .ok v
      | .rejected e => .error e
      | .thrown e => .error e := by
  unfold callReqFn
  rw [harg]

/-- Claim C1, error containment in the dispatch step: the promise of the
dispatch step is fulfilled for every state and every continuation, never
rejected.  When `_reqFn` resolves with `v`, `ctx.res` is `v` and nothing else
changes; when `_reqFn` returns a promise rejected with `e` or throws `e`,
`ctx.res` is the object with `data`, a copy that has the keys and values of
`this.defaultErrorData`, and `error`, the value `e` itself; the field
`this.defaultErrorData` is left as it was. -/
theorem dispatch_contains_failures (d : Deps) (w : World) (arg : Val)
    (harg : reqFnParamsOf w = .ok arg) :
    (∀ (w' : World) (next : World → Settled), (dispatchStep d w' next).2 = .ok ()) ∧
    (∀ v, _reqFn d arg = .resolved v →
      dispatchStep d w (koaCompose []) = ({ w with ctx := setField w.ctx "res" v }, .ok ())) ∧
    (∀ e, (_reqFn d arg = .rejected e ∨ _reqFn d arg = .thrown e) →
      ∃ copy,
        dispatchStep d w (koaCompose []) =
          ({ w with ctx := setField w.ctx "res" (.obj [("data", .obj copy), ("error", e)]) },
            .ok ()) ∧
        (∀ k, copy.lookup k = (ownEntries w.defaultErrorData).lookup k) ∧
        (∀ fields, w.defaultErrorData = .obj fields → ∀ k, copy.lookup k = fields.lookup k) ∧
        (dispatchStep d w (koaCompose [])).1.defaultErrorData = w.defaultErrorData) := by
  refine ⟨fun _ _ => rfl, ?_, ?_⟩
  · intro v hv
    rw [dispatchStep_terminal, callReqFn_of_ok d w arg harg, hv]
    rfl
  · intro e he
    refine ⟨assign [] (ownEntries w.defaultErrorData), ?_, lookup_spread_copy _, ?_, rfl⟩
    · rw [dispatchStep_terminal, callReqFn_of_ok d w arg harg]
      rcases he with he | he <;> rw [he] <;> rfl
    · intro fields hf k
      rw [lookup_spread_copy, hf]
      exact lookup_dedupKeys_nil fields k

/-- An instance of claim C1: the platform adapter rejects with `Error("test")`
and the dispatch step stores it next to a copy of the default error payload. -/
theorem dispatch_contains_failures_witness :
    reqFnParamsOf sampleDispatchWorld = .ok (.obj (sampleReq "wx" "get")) ∧
    ∃ copy,
      dispatchStep (sampleDeps (.rejected (mkError "test"))) sampleDispatchWorld (koaCompose [])
        = ({ sampleDispatchWorld with
            ctx := setField sampleDispatchWorld.ctx "res"
              (.obj [("data", .obj copy), ("error", mkError "test")]) }, .ok ()) ∧
      ∀ k, copy.lookup k = List.lookup k [("code", .num 999), ("msg", .str "error")] :=
  ⟨rfl, by
    obtain ⟨copy, h, -, h2, -⟩ :=
      (dispatch_contains_failures (sampleDeps (.rejected (mkError "test")))
        sampleDispatchWorld (.obj (sampleReq "wx" "get")) rfl).2.2 (mkError "test") (Or.inl rfl)
    exact ⟨copy, h, h2 _ rfl⟩⟩

/-! ## The response after the pipeline -/

theorem afterAll_preserves (P : World → Prop) (ps : List Parts)
    (h : ∀ p ∈ ps, ∀ w, P w → P (p.2 w)) (w : World) (hw : P w) : P (afterAll ps w) := by
  induction ps with
  | nil => exact hw
  | cons p ps ih =>
    have hrest : ∀ q ∈ ps, ∀ w, P w → P (q.2 w) :=
      fun q hq => h q (List.mem_cons_of_mem _ hq)
    exact h p (List.mem_cons_self _ _) _ (ih hrest)

theorem resOf_dispatched (d : Deps) (w : World) :
    resOf (dispatched d w) = caught w (callReqFn d w) := by
  unfold dispatched resOf
  rw [dispatchStep_terminal]
  exact getField_setField_self _ _ _

theorem resOf_dispatched_cases (d : Deps) (w : World) :
    (∃ arg v, reqFnParamsOf w = .ok arg ∧ _reqFn d arg = .resolved v ∧
      resOf (dispatched d w) = v) ∨
    (∃ copy e, resOf (dispatched d w) = .obj [("data", .obj copy), ("error", e)] ∧
      ∀ k, copy.lookup k = (ownEntries w.defaultErrorData).lookup k) := by
  rw [resOf_dispatched]
  cases h : reqFnParamsOf w with
  | error e =>
    refine Or.inr ⟨_, e, ?_, lookup_spread_copy _⟩
    unfold callReqFn
    rw [h]
    rfl
  | ok arg =>
    rw [callReqFn_of_ok d w arg h]
    cases h2 : _reqFn d arg with
    | resolved v => exact Or.inl ⟨arg, v, rfl, h2, rfl⟩
    | rejected e => exact Or.inr ⟨_, e, rfl, lookup_spread_copy _⟩
    | thrown e => exact Or.inr ⟨_, e, rfl, lookup_spread_copy _⟩

theorem getProp_of_isDefined (v : Val) (k : String) (h : isDefined v = true) :
    getProp v k = .ok (field v k) := by
  cases v <;> first | rfl | simp [isDefined] at h

/-- Claim C3 fails for a user middleware that returns without calling its
continuation: the pipeline of the sample leaf with the middleware `skipNext` is
fulfilled while `ctx.res` is still `undefined`, and the call then rejects with
the `TypeError` of the read `ctx.res.data`. -/
theorem pipeline_leaves_res_undefined :
    (_getMiddlewareFn (sampleDeps (.resolved (.obj [("data", .num 1)]))) sampleClient
        [skipNext] true samplePipelineWorld).2 = .ok () ∧
    resOf (_getMiddlewareFn (sampleDeps (.resolved (.obj [("data", .num 1)]))) sampleClient
        [skipNext] true samplePipelineWorld).1 = .undefined ∧
    (apiFn (sampleDeps (.resolved (.obj [("data", .num 1)]))) sampleClient sampleClient
        { sampleLeaf with middleware := some [skipNext] } .undefined .undefined sampleWorld).2
      = .rejected (typeError "read data of undefined") :=
  ⟨rfl, rfl, rfl⟩

theorem setProp_ok_isDefined (t : Val) (k : String) (v r : Val) (h : setProp t k v = .ok r) :
    isDefined r = true := by
  cases t <;> simp [setProp] at h <;> subst h <;> rfl

theorem sampleDeps_framed (out : Outcome) : (sampleDeps out).framedBy sampleFraming :=
  ⟨rfl, rfl, rfl, rfl, rfl⟩

theorem reqFn_sampleDeps (out : Outcome) (arg v : Val)
    (h : _reqFn (sampleDeps out) arg = .resolved v) : out = .resolved v := by
  unfold _reqFn at h
  cases hc : reqFnCall (sampleDeps out) arg with
  | error e => rw [hc] at h; cases h
  | ok call =>
    rw [hc] at h
    cases call <;> exact h

theorem sampleFraming_after_defined :
    ∀ p ∈ chainParts sampleFraming [], ∀ w, isDefined (resOf w) = true →
      isDefined (resOf (p.2 w)) = true := by
  intro p hp w hw
  simp only [chainParts, List.append_nil, List.cons_append, List.nil_append, List.mem_cons,
    List.mem_singleton, List.not_mem_nil, or_false] at hp
  rcases hp with rfl | rfl | rfl | rfl | rfl
  · exact hw
  · exact hw
  · exact hw
  · show isDefined (resOf (sampleFraming.formatResData.2 w)) = true
    simp only [sampleFraming]
    split
    · split
      · next res hres =>
        show isDefined (getField (setField w.ctx "res" res) "res") = true
        rw [getField_setField_self]
        exact setProp_ok_isDefined _ _ _ _ hres
      · exact hw
    · exact hw
  · show isDefined (getField (setField (setField w.ctx "endTime" (.num 2)) "reqTime" (.num 1))
      "res") = true
    rw [getField_setField, if_neg (by decide), getField_setField, if_neg (by decide)]
    exact hw

/-- Claim C8, onion order and unwind: when every middleware of the chain has
the shape `before; await next(); after`, the compiled pipeline run on `w` is
fulfilled and leaves the state got by running the `before` parts once each in
chain order, then the dispatch step, then the `after` parts once each in
reverse chain order, whatever the transport does.  The continuation handed to
a middleware, which is the composition of everything downstream of it, is
fulfilled with the state left by that whole downstream tail, dispatch
included.  The `after` part of the end-time middleware runs before the `after`
part of every other middleware of the chain. -/
theorem onion_order_and_unwind (d : Deps) (f : FramingParts) (self : TuaApi)
    (middleware : List Middleware) (useGlobalMiddleware : Bool) (gs ls : List Parts)
    (hd : d.framedBy f) (hg : self.middleware = gs.map onion) (hl : middleware = ls.map onion) :
    (∀ w, _getMiddlewareFn d self middleware useGlobalMiddleware w =
      (afterAll (chainParts f (if useGlobalMiddleware then gs ++ ls else ls))
        (dispatched d
          (beforeAll (chainParts f (if useGlobalMiddleware then gs ++ ls else ls)) w)),
        .ok ())) ∧
    (∀ (upstream downstream : List Parts),
      chainParts f (if useGlobalMiddleware then gs ++ ls else ls) = upstream ++ downstream →
      ∀ w, koaCompose (downstream.map onion ++ [dispatchStep d]) w =
        (afterAll downstream (dispatched d (beforeAll downstream w)), .ok ())) ∧
    (∀ w, afterAll (chainParts f (if useGlobalMiddleware then gs ++ ls else ls)) w =
      afterAll ([f.recordStartTime, f.formatReqParams] ++
          (if useGlobalMiddleware then gs ++ ls else ls) ++
          [f.updateFullUrl, f.formatResData])
        (f.recordReqTime.2 w)) := by
  refine ⟨fun w => getMiddlewareFn_onion d f self middleware useGlobalMiddleware gs ls hd hg hl w,
    ?_, ?_⟩
  · intro upstream downstream _ w
    rw [koaCompose_onion, koaCompose_dispatch]
  · intro w
    simp [chainParts, afterAll, List.foldr_append]

/-- An instance of claim C8: the sample pipeline with one global middleware and
a failing transport is fulfilled; after it the context holds the error, the
end time stamped on the way back, and one invocation of the global middleware. -/
theorem onion_order_and_unwind_witness :
    ((sampleDeps (.rejected (mkError "test"))).framedBy sampleFraming ∧
      (sampleClient.use (onion countCalls)).middleware = [countCalls].map onion ∧
      ([] : List Middleware) = ([] : List Parts).map onion) ∧
    _getMiddlewareFn (sampleDeps (.rejected (mkError "test")))
        (sampleClient.use (onion countCalls)) [] true samplePipelineWorld =
      (afterAll (chainParts sampleFraming [countCalls])
        (dispatched (sampleDeps (.rejected (mkError "test")))
          (beforeAll (chainParts sampleFraming [countCalls]) samplePipelineWorld)), .ok ()) ∧
    resError (_getMiddlewareFn (sampleDeps (.rejected (mkError "test")))
        (sampleClient.use (onion countCalls)) [] true samplePipelineWorld).1
      = .ok (mkError "test") ∧
    getField (_getMiddlewareFn (sampleDeps (.rejected (mkError "test")))
        (sampleClient.use (onion countCalls)) [] true samplePipelineWorld).1.ctx "endTime"
      = .num 2 ∧
    getField (_getMiddlewareFn (sampleDeps (.rejected (mkError "test")))
        (sampleClient.use (onion countCalls)) [] true samplePipelineWorld).1.ctx "calls"
      = .num 1 :=
  ⟨⟨sampleDeps_framed _, rfl, rfl⟩,
    (onion_order_and_unwind (sampleDeps (.rejected (mkError "test"))) sampleFraming
      (sampleClient.use (onion countCalls)) [] true [countCalls] [] (sampleDeps_framed _)
      rfl rfl).1 samplePipelineWorld, rfl, rfl, rfl⟩

theorem keysOf_setField (o : Obj) (k : String) (v : Val) :
    keysOf (setField o k v) = if k ∈ keysOf o then keysOf o else keysOf o ++ [k] := by
  induction o with
  | nil => simp [setField, keysOf]
  | cons p o ih =>
    obtain ⟨k1, v1⟩ := p
    by_cases h1 : k1 = k
    · subst h1
      simp [setField, keysOf]
    · have h1' : ¬ k = k1 := fun e => h1 e.symm
      simp only [keysOf, List.map_cons, List.mem_cons, h1', false_or] at ih ⊢
      by_cases hm : k ∈ List.map Prod.fst o
      · simp only [hm, if_true] at ih ⊢
        simp [setField, h1, ih]
      · simp only [hm, if_false] at ih ⊢
        simp [setField, h1, ih]

theorem nodup_keys_setField (o : Obj) (k : String) (v : Val) (h : (keysOf o).Nodup) :
    (keysOf (setField o k v)).Nodup := by
  rw [keysOf_setField]
  by_cases hm : k ∈ keysOf o
  · simpa [hm] using h
  · simp only [hm, if_false]
    rw [List.nodup_append]
    refine ⟨h, List.nodup_singleton k, ?_⟩
    intro x hx hx'
    simp only [List.mem_singleton] at hx'
    exact hm (hx' ▸ hx)

theorem nodup_keys_mergedRest (self : TuaApi) (c : ApiConfig) :
    (keysOf (mergedRest self c)).Nodup := by
  unfold mergedRest
  exact nodup_keys_setField _ _ _ (nodup_keys_setField _ _ _ (nodup_keys_setField _ _ _
    (nodup_keys_setField _ _ _ (nodup_keys_filter _ _ (nodup_keys_dedupKeys _ _)))))

theorem lookup_mergedRest (self : TuaApi) (c : ApiConfig) (k : String)
    (h1 : k ≠ "host") (h2 : k ≠ "reqType") (h3 : k ≠ "axiosOptions") (h4 : k ≠ "jsonpOptions") :
    (mergedRest self c).lookup k = if oneReqNames.contains k then none else c.rest.lookup k := by
  unfold mergedRest
  simp only [lookup_setField, h1, h2, h3, h4, if_false]
  rw [lookup_filter_keys (dedupKeys [] c.rest) (fun x => !(oneReqNames.contains x)) k,
    lookup_dedupKeys_nil]
  by_cases hc : oneReqNames.contains k = true <;> simp [hc]

theorem lookup_reqOf (self : TuaApi) (c : ApiConfig) (args callbackName : Val) (k : String) :
    (reqOf self c args callbackName).lookup k =
      ((mergedRest self c).lookup k).or
        (List.lookup k
          [("args", args), ("type", .str (c.type.getD "get")), ("path", .str c.path),
            ("params", paramsOf c), ("prefix", .str c.prefix_), ("apiName", .str (apiNameOf c)),
            ("fullPath", .str (fullPathOf c)), ("callbackName", callbackName),
            ("reqFnParams", .obj [])]) := by
  unfold reqOf
  rw [lookup_assign _ _ _ (nodup_keys_mergedRest self c)]

theorem entry_req (self0 : TuaApi) (c : ApiConfig) (args options : Val) (w : World) :
    getField (entryWorld self0 c args options w).ctx "req"
      = .obj (reqOf self0 c (normArgs args) (callbackNameOf c options)) := rfl

/-- Claim C9 fails for the empty name: the leaf with the name `""` and the path
`list` is registered under `list`, not under its name.  And a leaf with a
further property called `apiName` carries that property, not its api name, in
`ctx.req.apiName`. -/
theorem empty_name_is_not_the_key :
    ((_getOneReqMap (sampleDeps (.resolved .null)) sampleClient
        { sampleLeaf with name := some "" }).map Prod.fst = ["list"] ∧
      ["list"] ≠ [""]) ∧
    ((_getOneReqMap (sampleDeps (.resolved .null)) sampleClient
        { sampleLeaf with rest := [("apiName", .str "other")] }).map Prod.fst = ["list"] ∧
      field (getField (entryWorld sampleClient
          { sampleLeaf with rest := [("apiName", .str "other")] }
          .undefined .undefined sampleWorld).ctx "req") "apiName" = .str "other") :=
  ⟨⟨rfl, by decide⟩, ⟨rfl, rfl⟩⟩

/-- Claim C9 as amended, the api name rule: `_getOneReqMap` returns a map with
one entry, whose key is `name || path`: the name when it is given and is not
the empty string, the path when no name is given or the name is empty.  The
context of every call carries the same value in `ctx.req.apiName`, as long as
the leaf has no other property called `apiName`. -/
theorem api_name_rule (d : Deps) (self : TuaApi) (c : ApiConfig) :
    (∃ fn, _getOneReqMap d self c = [(apiNameOf c, fn)]) ∧
    (∀ name, c.name = some name → name ≠ "" → apiNameOf c = name) ∧
    (c.name = none ∨ c.name = some "" → apiNameOf c = c.path) ∧
    (c.rest.lookup "apiName" = none → ∀ args options w,
      field (getField (entryWorld self c args options w).ctx "req") "apiName"
        = .str (apiNameOf c)) := by
  refine ⟨⟨_, rfl⟩, ?_, ?_, ?_⟩
  · intro name hn hne
    simp [apiNameOf, hn, hne]
  · rintro (h | h) <;> simp [apiNameOf, h]
  · intro hrest args options w
    rw [entry_req]
    show getField _ "apiName" = _
    unfold getField
    rw [lookup_reqOf, lookup_mergedRest self c "apiName" (by decide) (by decide) (by decide)
      (by decide), hrest]
    rfl

/-- An instance of claim C9 as amended: the leaf named `items` carries that
name in the context of its calls. -/
theorem api_name_rule_witness :
    (sampleLeaf.rest.lookup "apiName" = none) ∧
    field (getField (entryWorld sampleClient { sampleLeaf with name := some "items" }
        .undefined .undefined sampleWorld).ctx "req") "apiName" = .str "items" :=
  ⟨rfl, (api_name_rule (sampleDeps (.resolved .null)) sampleClient
    { sampleLeaf with name := some "items" }).2.2.2 rfl .undefined .undefined sampleWorld⟩

theorem apiFn_congr_middlewareFn (d : Deps) (self0 self self' : TuaApi) (c : ApiConfig)
    (h : middlewareFnOf d self c = middlewareFnOf d self' c) (args options : Val) (w : World) :
    apiFn d self0 self c args options w = apiFn d self0 self' c args options w := by
  unfold apiFn
  rw [h]

/-- Claim C7 as amended, the user middlewares of a call: the chain is the two
leading framing middlewares, then the global sequence followed by the local
one when `useGlobalMiddleware` is true, or the local one alone when it is
false, then the three trailing framing middlewares and the dispatch step.  The
global sequence is read at call time, so a middleware registered with `use`
after the function was made is in the chain of a leaf that does not set
`useGlobalMiddleware` to false.  When it is false, neither the pipeline nor
the whole call depends on the client of the call, hence on any global
middleware.  When the framing, global and local middlewares all have the shape
`before; await next(); after`, the two parts of every global middleware run
once per call, in chain order around the dispatch step, when the flag is true,
and not at all when it is false. -/
theorem user_middlewares_of_call (d : Deps) (self0 self : TuaApi) (c : ApiConfig)
    (fn : Middleware) :
    (∀ middleware, middlewareChain d self middleware true =
      [d.recordStartTimeMiddleware, d.formatReqParamsMiddleware] ++
        (self.middleware ++ middleware) ++
        [d.updateFullUrlMiddleware, d.formatResDataMiddleware, d.recordReqTimeMiddleware,
          dispatchStep d]) ∧
    (∀ middleware, middlewareChain d self middleware false =
      [d.recordStartTimeMiddleware, d.formatReqParamsMiddleware] ++ middleware ++
        [d.updateFullUrlMiddleware, d.formatResDataMiddleware, d.recordReqTimeMiddleware,
          dispatchStep d]) ∧
    (c.useGlobalMiddleware ≠ some false →
      middlewareFnOf d (self.use fn) c = koaCompose
        ([d.recordStartTimeMiddleware, d.formatReqParamsMiddleware] ++
          ((self.middleware ++ [fn]) ++ c.middleware.getD []) ++
          [d.updateFullUrlMiddleware, d.formatResDataMiddleware, d.recordReqTimeMiddleware,
            dispatchStep d])) ∧
    (c.useGlobalMiddleware = some false → ∀ (self' : TuaApi) args options w,
      middlewareFnOf d self' c = middlewareFnOf d self c ∧
      apiFn d self0 self' c args options w = apiFn d self0 self c args options w) ∧
    (∀ (f : FramingParts) (gs ls : List Parts), d.framedBy f →
      self.middleware = gs.map onion → c.middleware.getD [] = ls.map onion →
      (c.useGlobalMiddleware ≠ some false → ∀ w,
        middlewareFnOf d self c w =
          (afterAll (chainParts f (gs ++ ls))
            (dispatched d (beforeAll (chainParts f (gs ++ ls)) w)), .ok ())) ∧
      (c.useGlobalMiddleware = some false → ∀ w,
        middlewareFnOf d self c w =
          (afterAll (chainParts f ls) (dispatched d (beforeAll (chainParts f ls) w)),
            .ok ()))) := by
  have htrue : c.useGlobalMiddleware ≠ some false → c.useGlobalMiddleware.getD true = true := by
    intro h
    cases hc : c.useGlobalMiddleware with
    | none => rfl
    | some b =>
      cases b
      · exact absurd hc h
      · rfl
  refine ⟨fun _ => rfl, fun _ => rfl, ?_, ?_, ?_⟩
  · intro h
    unfold middlewareFnOf _getMiddlewareFn
    rw [htrue h]
    rfl
  · intro h self' args options w
    have hm : middlewareFnOf d self' c = middlewareFnOf d self c := by
      unfold middlewareFnOf _getMiddlewareFn
      rw [h]
      rfl
    exact ⟨hm, apiFn_congr_middlewareFn d self0 self' self c hm args options w⟩
  · intro f gs ls hd hg hl
    constructor
    · intro h w
      unfold middlewareFnOf
      rw [htrue h]
      exact getMiddlewareFn_onion d f self _ true gs ls hd hg hl w
    · intro h w
      unfold middlewareFnOf
      rw [h]
      exact getMiddlewareFn_onion d f self _ false gs ls hd hg hl w

/-- An instance of claim C7 as amended: a global middleware registered with
`use` that counts its invocations is invoked once by a call of the sample
leaf, and not at all when the leaf sets `useGlobalMiddleware` to false. -/
theorem user_middlewares_of_call_witness :
    ((sampleDeps (.resolved (.obj [("data", .num 1)]))).framedBy sampleFraming ∧
      (sampleClient.use (onion countCalls)).middleware = [countCalls].map onion ∧
      sampleLeaf.middleware.getD [] = ([] : List Parts).map onion) ∧
    getField (middlewareFnOf (sampleDeps (.resolved (.obj [("data", .num 1)])))
      (sampleClient.use (onion countCalls)) sampleLeaf samplePipelineWorld).1.ctx "calls"
      = .num 1 ∧
    getField (middlewareFnOf (sampleDeps (.resolved (.obj [("data", .num 1)])))
      (sampleClient.use (onion countCalls)) { sampleLeaf with useGlobalMiddleware := some false }
      samplePipelineWorld).1.ctx "calls" = .undefined :=
  ⟨⟨sampleDeps_framed _, rfl, rfl⟩,
    by
      rw [((user_middlewares_of_call (sampleDeps (.resolved (.obj [("data", .num 1)])))
        sampleClient (sampleClient.use (onion countCalls)) sampleLeaf skipNext).2.2.2.2
        sampleFraming [countCalls] [] (sampleDeps_framed _) rfl rfl).1 (by simp [sampleLeaf])
        samplePipelineWorld]
      rfl,
    rfl⟩

theorem lookup_isSome_iff_mem_keys (o : Obj) (k : String) :
    (o.lookup k).isSome = true ↔ k ∈ keysOf o := by
  induction o with
  | nil => simp [keysOf]
  | cons p o ih =>
    obtain ⟨k1, v1⟩ := p
    rw [lookup_cons_eq]
    by_cases h : k = k1
    · subst h; simp [keysOf]
    · simp only [h, if_false, keysOf, List.map_cons, List.mem_cons, false_or]
      exact ih

theorem getProp_obj (fields : Obj) (k : String) :
    getProp (.obj fields) k = .ok (getField fields k) := rfl

theorem setProp_obj (fields : Obj) (k : String) (v : Val) :
    setProp (.obj fields) k v = .ok (.obj (setField fields k v)) := rfl

/-- After the header is stored, `ctx.req` is still an object and only its
`reqFnParams` may have changed. -/
theorem storeHeader_req (rArgs : Val) (w w1 : World) (req : Obj)
    (hreq : getField w.ctx "req" = .obj req) (h : storeHeader rArgs w = .ok w1) :
    ∃ req1, getField w1.ctx "req" = .obj req1 ∧
      (∀ k, k ≠ "reqFnParams" → getField req1 k = getField req k) ∧
      w1.defaultErrorData = w.defaultErrorData ∧ w1.key = w.key ∧ w1.params = w.params := by
  unfold storeHeader at h
  cases hh : getProp rArgs "header" with
  | error e => rw [hh] at h; cases h
  | ok header =>
    rw [hh] at h
    by_cases ht : truthy header = true
    · simp only [ht, if_true, hreq, getProp_obj, setProp_obj] at h
      cases hs : setProp (getField req "reqFnParams") "header" header with
      | error e => rw [hs] at h; cases h
      | ok rfp1 =>
        rw [hs] at h
        cases h
        refine ⟨setField req "reqFnParams" rfp1, getField_setField_self _ _ _, ?_, rfl, rfl, rfl⟩
        intro k hk
        rw [getField_setField, if_neg hk]
    · simp only [ht] at h
      cases h
      exact ⟨req, hreq, fun _ _ => rfl, rfl, rfl, rfl⟩

theorem beforeFnCallback_params (params r : Val) (w w2 : World) (req : Obj)
    (hreq : getField w.ctx "req" = .obj req) (hp : getField req "params" = params)
    (h : beforeFnCallback params r w = (w2, .ok ())) :
    field (getField w2.ctx "req") "params" = mergeParams params r := by
  unfold beforeFnCallback at h
  cases hs : storeHeader (rArgsOf r) w with
  | error e => rw [hs] at h; cases h
  | ok w1 =>
    rw [hs] at h
    obtain ⟨req1, hreq1, hsame, -⟩ := storeHeader_req _ w w1 req hreq hs
    by_cases ht : truthy (field (rArgsOf r) "params") = true
    · simp only [ht, Bool.not_true, hreq1, setProp_obj] at h
      cases h
      show field (getField (setField w1.ctx "req" _) "req") "params" = _
      rw [getField_setField_self]
      show getField (setField req1 "params" _) "params" = _
      rw [getField_setField_self]
      simp [mergeParams, ht]
    · simp only [ht] at h
      cases h
      rw [hreq1]
      show getField req1 "params" = _
      rw [hsame "params" (by decide), hp]
      simp [mergeParams, ht]

theorem entry_params (self0 : TuaApi) (c : ApiConfig) (args callbackName : Val) :
    getField (reqOf self0 c args callbackName) "params" = paramsOf c := by
  unfold getField
  rw [lookup_reqOf, lookup_mergedRest self0 c "params" (by decide) (by decide) (by decide)
    (by decide)]
  rfl

theorem storeHeader_total (rArgs : Val) (w : World) (req : Obj)
    (hreq : getField w.ctx "req" = .obj req) (hr : isDefined rArgs = true)
    (hbag : ∃ bag, getField req "reqFnParams" = .obj bag) :
    ∃ w1, storeHeader rArgs w = .ok w1 := by
  obtain ⟨bag, hbag⟩ := hbag
  unfold storeHeader
  rw [getProp_of_isDefined rArgs "header" hr]
  by_cases ht : truthy (field rArgs "header") = true
  · simp only [ht, if_true, hreq, getProp_obj, hbag, setProp_obj]
    exact ⟨_, rfl⟩
  · simp only [ht]
    exact ⟨_, rfl⟩

theorem beforeFnCallback_total (params r : Val) (w : World) (req : Obj)
    (hreq : getField w.ctx "req" = .obj req) (hr : r ≠ .null)
    (hbag : ∃ bag, getField req "reqFnParams" = .obj bag) :
    ∃ w2, beforeFnCallback params r w = (w2, .ok ()) := by
  have hdef : isDefined (rArgsOf r) = true := by
    cases r <;> first | rfl | exact absurd rfl hr
  obtain ⟨w1, hs⟩ := storeHeader_total (rArgsOf r) w req hreq hdef hbag
  obtain ⟨req1, hreq1, -⟩ := storeHeader_req _ w w1 req hreq hs
  unfold beforeFnCallback
  rw [hs]
  by_cases ht : truthy (field (rArgsOf r) "params") = true
  · simp only [ht, Bool.not_true, hreq1, setProp_obj]
    exact ⟨_, rfl⟩
  · simp only [ht]
    exact ⟨_, rfl⟩

theorem entry_bag (self0 : TuaApi) (c : ApiConfig) (args callbackName : Val)
    (h : c.rest.lookup "reqFnParams" = none) :
    getField (reqOf self0 c args callbackName) "reqFnParams" = .obj [] := by
  unfold getField
  rw [lookup_reqOf, lookup_mergedRest self0 c "reqFnParams" (by decide) (by decide) (by decide)
    (by decide), h]
  rfl

/-- Claim C4, pre-hook parameter merging: whenever `beforeFnCallback` lets the
call go on, `ctx.req.params` is `mergeParams` of the declared params and the
pre-hook value `r`, and it does let the call go on for every `r` other than
`null` (on a leaf without a property called `reqFnParams`).  That value is the
declared params when `r` has no truthy `params`; `r.params` itself when the
declared params are an array; and when they are a keyed mapping, the mapping
in which every key of `r.params` has the value `r.params` gives it, every
other key the declared value, and whose keys are those of the two together.
The example of the claim evaluates as it says. -/
theorem prehook_params_merge (self0 : TuaApi) (c : ApiConfig) (args options r : Val)
    (w : World) :
    (∀ w2, beforeFnCallback (paramsOf c) r (entryWorld self0 c args options w) = (w2, .ok ()) →
      field (getField w2.ctx "req") "params" = mergeParams (paramsOf c) r) ∧
    (r ≠ .null → c.rest.lookup "reqFnParams" = none →
      ∃ w2, beforeFnCallback (paramsOf c) r (entryWorld self0 c args options w) = (w2, .ok ())) ∧
    (truthy (field (rArgsOf r) "params") = false → mergeParams (paramsOf c) r = paramsOf c) ∧
    (truthy (field (rArgsOf r) "params") = true → isArray (paramsOf c) = true →
      mergeParams (paramsOf c) r = field (rArgsOf r) "params") ∧
    (truthy (field (rArgsOf r) "params") = true → ∀ fields, paramsOf c = .obj fields →
      ∃ merged, mergeParams (paramsOf c) r = .obj merged ∧
        (∀ k, merged.lookup k =
          ((ownEntries (field (rArgsOf r) "params")).lookup k).or (fields.lookup k)) ∧
        (∀ k, k ∈ keysOf merged ↔
          k ∈ keysOf fields ∨ k ∈ keysOf (ownEntries (field (rArgsOf r) "params")))) ∧
    mergeParams (.obj [("a", .num 1), ("b", .num 2)])
        (.obj [("params", .obj [("b", .num 3), ("c", .num 4)])])
      = .obj [("a", .num 1), ("b", .num 3), ("c", .num 4)] := by
  refine ⟨?_, ?_, ?_, ?_, ?_, rfl⟩
  · intro w2 h
    exact beforeFnCallback_params _ r _ w2 _ (entry_req self0 c args options w)
      (entry_params self0 c _ _) h
  · intro hr hbag
    exact beforeFnCallback_total _ r _ _ (entry_req self0 c args options w) hr
      ⟨[], entry_bag self0 c _ _ hbag⟩
  · intro ht
    simp [mergeParams, ht]
  · intro ht ha
    simp [mergeParams, ht, ha]
  · intro ht fields hf
    have hlook : ∀ k, (assign (assign [] (ownEntries (Val.obj fields)))
        (ownEntries (field (rArgsOf r) "params"))).lookup k =
          ((ownEntries (field (rArgsOf r) "params")).lookup k).or (fields.lookup k) := by
      intro k
      rw [lookup_assign _ _ _ (nodup_keys_ownEntries _), lookup_spread_copy]
      show _ = ((ownEntries (field (rArgsOf r) "params")).lookup k).or (fields.lookup k)
      rw [show (ownEntries (Val.obj fields)).lookup k = fields.lookup k from
        lookup_dedupKeys_nil fields k]
    refine ⟨_, by simp [mergeParams, ht, hf, isArray], hlook, ?_⟩
    intro k
    rw [← lookup_isSome_iff_mem_keys, hlook, ← lookup_isSome_iff_mem_keys,
      ← lookup_isSome_iff_mem_keys]
    cases (ownEntries (field (rArgsOf r) "params")).lookup k <;>
      cases fields.lookup k <;> simp [Option.or]

/-- An instance of claim C4: declared params `[a, b]` and a pre-hook that
returns the params `[x]` give `[x]`. -/
theorem prehook_params_merge_witness :
    (Val.obj [("params", .arr [.str "x"])] ≠ .null ∧ sampleLeaf.rest.lookup "reqFnParams" = none ∧
      truthy (field (rArgsOf (.obj [("params", .arr [.str "x"])])) "params") = true ∧
      isArray (paramsOf { sampleLeaf with params := some (.arr [.str "a", .str "b"]) }) = true) ∧
    mergeParams (paramsOf { sampleLeaf with params := some (.arr [.str "a", .str "b"]) })
      (.obj [("params", .arr [.str "x"])]) = .arr [.str "x"] :=
  ⟨⟨by simp, rfl, rfl, rfl⟩,
    (prehook_params_merge sampleClient
      { sampleLeaf with params := some (.arr [.str "a", .str "b"]) } .undefined .undefined
      (.obj [("params", .arr [.str "x"])]) sampleWorld).2.2.2.1 rfl rfl⟩

/-! ## The whole call -/

theorem apiFn_eq_settle (d : Deps) (self0 self : TuaApi) (c : ApiConfig) (args options r : Val)
    (data : Val) (w w1 w2 w3 w4 : World) (hopt : options ≠ .null)
    (hbefore : (c.beforeFn.getD defaultBeforeFn) w = (w1, .resolved r))
    (hcb : beforeFnCallback (paramsOf c) r (entryWorld self0 c args options w1) = (w2, .ok ()))
    (hpipe : middlewareFnOf d self c w2 = (w3, .ok ()))
    (hdata : getProp (getField w3.ctx "res") "data" = .ok data)
    (hafter : (c.afterFn.getD defaultAfterFn) data w3 = (w4, .ok ())) :
    apiFn d self0 self c args options w = settle w4 := by
  unfold apiFn
  cases options <;> first
    | exact absurd rfl hopt
    | simp only [hbefore, hcb, hpipe, hdata, hafter]

theorem getProp_data_of_resError (w : World) (x : Val) (h : resError w = .ok x) :
    ∃ data, getProp (getField w.ctx "res") "data" = .ok data := by
  unfold resError resOf at h
  cases hres : getField w.ctx "res" <;> rw [hres] at h <;> first
    | exact ⟨_, rfl⟩
    | cases h

theorem settle_of_resError (w : World) (err : Val) (h : resError w = .ok err) :
    settle w = if truthy err then (w, .rejected err)
      else (w, .resolved (field (getField w.ctx "res") "data")) := by
  unfold resError resOf at h
  unfold settle
  rw [h]

theorem resError_dispatched_of_error (d : Deps) (w : World) (e : Val)
    (h : callReqFn d w = .error e) : resError (dispatched d w) = .ok e := by
  unfold resError
  rw [resOf_dispatched, h]
  rfl

/-- A failure of the `_reqFn` call ends in `ctx.res.error`, and the call settles
from there, when the hooks and middlewares do not throw and leave that slot alone. -/
theorem apiFn_of_dispatch_error (d : Deps) (f : FramingParts) (self0 self : TuaApi)
    (c : ApiConfig) (gs ls : List Parts) (args options r e : Val) (w w1 w2 : World)
    (hopt : options ≠ .null) (hd : d.framedBy f) (hg : self.middleware = gs.map onion)
    (hl : c.middleware.getD [] = ls.map onion)
    (hbefore : (c.beforeFn.getD defaultBeforeFn) w = (w1, .resolved r))
    (hcb : beforeFnCallback (paramsOf c) r (entryWorld self0 c args options w1) = (w2, .ok ()))
    (hfail : callReqFn d (beforeAll
      (chainParts f (if c.useGlobalMiddleware.getD true then gs ++ ls else ls)) w2) = .error e)
    (hkeep : ∀ p ∈ chainParts f (if c.useGlobalMiddleware.getD true then gs ++ ls else ls),
      ∀ w, resError (p.2 w) = resError w)
    (hafterFn : ∀ data w3, ∃ w4, (c.afterFn.getD defaultAfterFn) data w3 = (w4, .ok ()) ∧
      resError w4 = resError w3) :
    ∃ w4, apiFn d self0 self c args options w = settle w4 ∧ resError w4 = .ok e ∧
      (middlewareFnOf d self c w2).2 = .ok () := by
  have hpipe := getMiddlewareFn_onion d f self (c.middleware.getD [])
    (c.useGlobalMiddleware.getD true) gs ls hd hg hl w2
  have herr3 : resError (afterAll
      (chainParts f (if c.useGlobalMiddleware.getD true then gs ++ ls else ls))
      (dispatched d (beforeAll
        (chainParts f (if c.useGlobalMiddleware.getD true then gs ++ ls else ls)) w2)))
      = .ok e :=
    afterAll_preserves (fun w => resError w = .ok e) _
      (fun p hp w hw => (hkeep p hp w).trans hw) _ (resError_dispatched_of_error d _ e hfail)
  obtain ⟨data, hdata⟩ := getProp_data_of_resError _ e herr3
  obtain ⟨w4, hafter, herr4⟩ := hafterFn data (afterAll
      (chainParts f (if c.useGlobalMiddleware.getD true then gs ++ ls else ls))
      (dispatched d (beforeAll
        (chainParts f (if c.useGlobalMiddleware.getD true then gs ++ ls else ls)) w2)))
  refine ⟨w4, apiFn_eq_settle d self0 self c args options r data w w1 w2 _ w4 hopt hbefore hcb
    hpipe hdata hafter, herr4.trans herr3, ?_⟩
  show (_getMiddlewareFn d self (c.middleware.getD []) (c.useGlobalMiddleware.getD true) w2).2 = _
  rw [hpipe]

/-- Claim C2 fails for a falsy failure value: when the transport rejects with
`undefined`, or with the number `0`, the call of the sample leaf does not
reject with that value but resolves with the copy of the default error
payload. -/
theorem falsy_failure_resolves :
    (_reqFn (sampleDeps (.rejected .undefined)) (sampleBag "wx" (.obj [("a", .str "b")]))
        = .rejected .undefined ∧
      (apiFn (sampleDeps (.rejected .undefined)) sampleClient sampleClient sampleLeaf
        (.obj [("a", .str "b")]) .undefined sampleWorld).2
        = .resolved (.obj [("code", .num 999), ("msg", .str "error")])) ∧
    (_reqFn (sampleDeps (.rejected (.num 0))) (sampleBag "wx" (.obj [("a", .str "b")]))
        = .rejected (.num 0) ∧
      (apiFn (sampleDeps (.rejected (.num 0))) sampleClient sampleClient sampleLeaf
        (.obj [("a", .str "b")]) .undefined sampleWorld).2
        = .resolved (.obj [("code", .num 999), ("msg", .str "error")])) ∧
    Outcome.resolved (.obj [("code", .num 999), ("msg", .str "error")]) ≠ .rejected .undefined ∧
    Outcome.resolved (.obj [("code", .num 999), ("msg", .str "error")]) ≠ .rejected (.num 0) :=
  ⟨⟨rfl, rfl⟩, ⟨rfl, rfl⟩, fun h => Outcome.noConfusion h, fun h => Outcome.noConfusion h⟩

/-- Claim C2 as amended, how a call settles: when the transport fails with
`e` (a rejected promise or a throw), the hooks and the middlewares do not
throw, and the `after` parts and the post-hook leave `ctx.res.error` as it is,
the final response carries `e` as its error; the call rejects with exactly `e`
when `e` is truthy and resolves with `ctx.res.data` when `e` is falsy.  In
every state whose response has a falsy error, the last step resolves with
`ctx.res.data`. -/
theorem call_settles_by_response_error (d : Deps) (f : FramingParts) (self0 self : TuaApi)
    (c : ApiConfig) (gs ls : List Parts) (args options r arg e : Val) (w w1 w2 : World)
    (hopt : options ≠ .null) (hd : d.framedBy f) (hg : self.middleware = gs.map onion)
    (hl : c.middleware.getD [] = ls.map onion)
    (hbefore : (c.beforeFn.getD defaultBeforeFn) w = (w1, .resolved r))
    (hcb : beforeFnCallback (paramsOf c) r (entryWorld self0 c args options w1) = (w2, .ok ()))
    (harg : reqFnParamsOf (beforeAll
      (chainParts f (if c.useGlobalMiddleware.getD true then gs ++ ls else ls)) w2) = .ok arg)
    (hfail : _reqFn d arg = .rejected e ∨ _reqFn d arg = .thrown e)
    (hkeep : ∀ p ∈ chainParts f (if c.useGlobalMiddleware.getD true then gs ++ ls else ls),
      ∀ w, resError (p.2 w) = resError w)
    (hafterFn : ∀ data w3, ∃ w4, (c.afterFn.getD defaultAfterFn) data w3 = (w4, .ok ()) ∧
      resError w4 = resError w3) :
    (∃ w4, apiFn d self0 self c args options w = settle w4 ∧ resError w4 = .ok e ∧
      (truthy e = true → (apiFn d self0 self c args options w).2 = .rejected e) ∧
      (truthy e = false →
        (apiFn d self0 self c args options w).2 = .resolved (field (resOf w4) "data"))) ∧
    (∀ w' err, resError w' = .ok err → truthy err = false →
      settle w' = (w', .resolved (field (resOf w') "data"))) := by
  have hcall : callReqFn d (beforeAll
      (chainParts f (if c.useGlobalMiddleware.getD true then gs ++ ls else ls)) w2)
      = .error e := by
    rw [callReqFn_of_ok d _ arg harg]
    rcases hfail with h | h <;> rw [h]
  obtain ⟨w4, hsettle, herr, -⟩ := apiFn_of_dispatch_error d f self0 self c gs ls args options
    r e w w1 w2 hopt hd hg hl hbefore hcb hcall hkeep hafterFn
  refine ⟨⟨w4, hsettle, herr, ?_, ?_⟩, ?_⟩
  · intro ht
    rw [hsettle, settle_of_resError w4 e herr, if_pos ht]
  · intro ht
    rw [hsettle, settle_of_resError w4 e herr]
    simp only [ht]
    rfl
  · intro w' err herr' ht
    rw [settle_of_resError w' err herr']
    simp only [ht]
    rfl

theorem setProp_data_keeps_error (t t' x : Val) (h : setProp t "data" x = .ok t') :
    getProp t' "error" = getProp t "error" := by
  cases t <;> simp [setProp] at h <;> subst h <;> first
    | rfl
    | (show Except.ok (getField (setField _ "data" x) "error") = Except.ok (getField _ "error")
       rw [getField_setField, if_neg (by decide)])

theorem sampleFraming_after_keeps_error :
    ∀ p ∈ chainParts sampleFraming [], ∀ w, resError (p.2 w) = resError w := by
  intro p hp w
  simp only [chainParts, List.append_nil, List.cons_append, List.nil_append, List.mem_cons,
    List.mem_singleton, List.not_mem_nil, or_false] at hp
  rcases hp with rfl | rfl | rfl | rfl | rfl
  · rfl
  · rfl
  · rfl
  · show resError (sampleFraming.formatResData.2 w) = resError w
    simp only [sampleFraming]
    split
    · split
      · next res hres =>
        show getProp (getField (setField w.ctx "res" res) "res") "error" = _
        rw [getField_setField_self]
        exact setProp_data_keeps_error _ _ _ hres
      · rfl
    · rfl
  · show getProp (getField (setField (setField w.ctx "endTime" (.num 2)) "reqTime" (.num 1))
      "res") "error" = _
    rw [getField_setField, if_neg (by decide), getField_setField, if_neg (by decide)]
    rfl

theorem defaultAfterFn_keeps_error (c : ApiConfig) (h : c.afterFn = none) :
    ∀ data w3, ∃ w4, (c.afterFn.getD defaultAfterFn) data w3 = (w4, .ok ()) ∧
      resError w4 = resError w3 := by
  intro data w3
  rw [h]
  exact ⟨w3, rfl, rfl⟩

/-- An instance of claim C2 as amended: the platform adapter rejects with
`Error("test")` and so does the call of the sample leaf. -/
theorem call_settles_by_response_error_witness :
    ((Val.undefined ≠ Val.null) ∧
      (sampleDeps (.rejected (mkError "test"))).framedBy sampleFraming ∧
      sampleClient.middleware = ([] : List Parts).map onion ∧
      sampleLeaf.middleware.getD [] = ([] : List Parts).map onion ∧
      (sampleLeaf.beforeFn.getD defaultBeforeFn) sampleWorld = (sampleWorld, .resolved .undefined) ∧
      reqFnParamsOf (beforeAll (chainParts sampleFraming [])
        (entryWorld sampleClient sampleLeaf (.obj [("a", .str "b")]) .undefined sampleWorld))
        = .ok (sampleBag "wx" (.obj [("a", .str "b")])) ∧
      _reqFn (sampleDeps (.rejected (mkError "test"))) (sampleBag "wx" (.obj [("a", .str "b")]))
        = .rejected (mkError "test") ∧
      truthy (mkError "test") = true) ∧
    (apiFn (sampleDeps (.rejected (mkError "test"))) sampleClient sampleClient sampleLeaf
      (.obj [("a", .str "b")]) .undefined sampleWorld).2 = .rejected (mkError "test") :=
  ⟨⟨by simp, sampleDeps_framed _, rfl, rfl, rfl, rfl, rfl, rfl⟩, by
    obtain ⟨⟨w4, -, -, h, -⟩, -⟩ := call_settles_by_response_error
      (sampleDeps (.rejected (mkError "test"))) sampleFraming sampleClient sampleClient
      sampleLeaf [] [] (.obj [("a", .str "b")]) .undefined .undefined
      (sampleBag "wx" (.obj [("a", .str "b")])) (mkError "test") sampleWorld sampleWorld
      (entryWorld sampleClient sampleLeaf (.obj [("a", .str "b")]) .undefined sampleWorld)
      (by simp) (sampleDeps_framed _) rfl rfl rfl rfl rfl (Or.inl rfl)
      sampleFraming_after_keeps_error (defaultAfterFn_keeps_error sampleLeaf rfl)
    exact h rfl⟩

theorem reqFnCall_invalid (d : Deps) (arg : Val) (hdef : isDefined arg = true)
    (h : isValidReqType d (field arg "reqType") = false) :
    reqFnCall d arg = .error (mkError "invalid reqType") := by
  cases arg <;> first
    | (simp only [reqFnCall, h]; rfl)
    | (simp [isDefined] at hdef)

theorem getField_mergedRest_reqType (self : TuaApi) (c : ApiConfig) :
    (mergedRest self c).lookup "reqType" = some (effectiveReqType self c) := by
  have h0 : getField ((dedupKeys [] c.rest).filter (fun kv => !(oneReqNames.contains kv.1)))
      "reqType" = getField c.rest "reqType" := by
    unfold getField
    rw [lookup_filter_keys (dedupKeys [] c.rest) (fun x => !(oneReqNames.contains x)) "reqType",
      lookup_dedupKeys_nil, if_pos (by decide)]
  unfold mergedRest effectiveReqType
  rw [lookup_setField, if_neg (by decide), lookup_setField, if_neg (by decide), lookup_setField,
    if_pos rfl, getField_setField, if_neg (by decide), h0]

theorem entry_reqType (self0 : TuaApi) (c : ApiConfig) (args options : Val) (w : World) :
    field (getField (entryWorld self0 c args options w).ctx "req") "reqType"
      = effectiveReqType self0 c := by
  rw [entry_req]
  show getField _ "reqType" = _
  unfold getField
  rw [lookup_reqOf, getField_mergedRest_reqType]
  rfl

/-- Claim C6 as amended, invalid transport kind on a call: `ctx.req.reqType`
of a call is the effective `reqType` of the leaf (its own when truthy, else
that of the client).  For every argument other than `undefined` and `null`
whose `reqType` is not in `VALID_REQ_TYPES`, whatever its `type`, `_reqFn`
throws `Error("invalid reqType")` without naming any adapter call.  When the
effective `reqType` of the leaf is not in `VALID_REQ_TYPES`, the second
argument of the call is not `null`, the pre-hook resolves and its result is
merged without a throw, the framing, global and local middlewares all have the
shape `before; await next(); after`, the framing hands `ctx.req.reqType` on to
`_reqFn` in an argument other than `undefined` and `null`, and the `after`
parts and the post-hook neither throw nor touch `ctx.res.error`, then the
dispatch step stores the error in `ctx.res.error` next to the default error
payload, the pipeline is fulfilled, and the call rejects with that error. -/
theorem invalid_reqType_rejects (d : Deps) (self0 : TuaApi) (c : ApiConfig) :
    (∀ args options w1, field (getField (entryWorld self0 c args options w1).ctx "req") "reqType"
      = effectiveReqType self0 c) ∧
    (∀ arg, isDefined arg = true → isValidReqType d (field arg "reqType") = false →
      reqFnCall d arg = .error (mkError "invalid reqType") ∧
      _reqFn d arg = .thrown (mkError "invalid reqType")) ∧
    (∀ (f : FramingParts) (self : TuaApi) (gs ls : List Parts) (args options r arg : Val)
      (w w1 w2 : World),
      isValidReqType d (effectiveReqType self0 c) = false →
      options ≠ .null → d.framedBy f → self.middleware = gs.map onion →
      c.middleware.getD [] = ls.map onion →
      (c.beforeFn.getD defaultBeforeFn) w = (w1, .resolved r) →
      beforeFnCallback (paramsOf c) r (entryWorld self0 c args options w1) = (w2, .ok ()) →
      reqFnParamsOf (beforeAll
        (chainParts f (if c.useGlobalMiddleware.getD true then gs ++ ls else ls)) w2) = .ok arg →
      isDefined arg = true →
      field arg "reqType" = effectiveReqType self0 c →
      (∀ p ∈ chainParts f (if c.useGlobalMiddleware.getD true then gs ++ ls else ls),
        ∀ w, resError (p.2 w) = resError w) →
      (∀ data w3, ∃ w4, (c.afterFn.getD defaultAfterFn) data w3 = (w4, .ok ()) ∧
        resError w4 = resError w3) →
      (∃ copy, resOf (dispatched d (beforeAll
          (chainParts f (if c.useGlobalMiddleware.getD true then gs ++ ls else ls)) w2))
          = .obj [("data", .obj copy), ("error", mkError "invalid reqType")]) ∧
      (middlewareFnOf d self c w2).2 = .ok () ∧
      (apiFn d self0 self c args options w).2 = .rejected (mkError "invalid reqType")) := by
  have hthrow : ∀ arg, isDefined arg = true → isValidReqType d (field arg "reqType") = false →
      reqFnCall d arg = .error (mkError "invalid reqType") ∧
      _reqFn d arg = .thrown (mkError "invalid reqType") := by
    intro arg h1 h2
    have hcallE := reqFnCall_invalid d arg h1 h2
    refine ⟨hcallE, ?_⟩
    unfold _reqFn
    rw [hcallE]
  refine ⟨fun args options w1 => entry_reqType self0 c args options w1, hthrow, ?_⟩
  intro f self gs ls args options r arg w w1 w2 hinvalid hopt hd hg hl hbefore hcb harg hdef hrt
    hkeep hafterFn
  have hreq := (hthrow arg hdef (by rw [hrt]; exact hinvalid)).2
  have hcall : callReqFn d (beforeAll
      (chainParts f (if c.useGlobalMiddleware.getD true then gs ++ ls else ls)) w2)
      = .error (mkError "invalid reqType") := by
    rw [callReqFn_of_ok d _ arg harg, hreq]
  obtain ⟨w4, hsettle, herr, hpipe⟩ := apiFn_of_dispatch_error d f self0 self c gs ls args
    options r (mkError "invalid reqType") w w1 w2 hopt hd hg hl hbefore hcb hcall hkeep hafterFn
  refine ⟨?_, hpipe, ?_⟩
  · refine ⟨assign [] (ownEntries (beforeAll
      (chainParts f (if c.useGlobalMiddleware.getD true then gs ++ ls else ls))
      w2).defaultErrorData), ?_⟩
    rw [resOf_dispatched, hcall]
    rfl
  · rw [hsettle, settle_of_resError w4 _ herr]
    rfl

/-- An instance of claim C6 as amended: the sample leaf with the `reqType`
`foo` rejects with `Error("invalid reqType")`. -/
theorem invalid_reqType_rejects_witness :
    (isValidReqType (sampleDeps (.resolved .null))
        (effectiveReqType sampleClient { sampleLeaf with rest := [("reqType", .str "foo")] })
        = false ∧
      (Val.undefined ≠ Val.null) ∧
      (sampleDeps (.resolved .null)).framedBy sampleFraming ∧
      reqFnParamsOf (beforeAll (chainParts sampleFraming [])
        (entryWorld sampleClient { sampleLeaf with rest := [("reqType", .str "foo")] }
          (.obj [("param3", .str "steve")]) .undefined sampleWorld))
        = .ok (sampleBag "foo" (.obj [("param3", .str "steve")])) ∧
      isDefined (sampleBag "foo" (.obj [("param3", .str "steve")])) = true) ∧
    (apiFn (sampleDeps (.resolved .null)) sampleClient sampleClient
      { sampleLeaf with rest := [("reqType", .str "foo")] }
      (.obj [("param3", .str "steve")]) .undefined sampleWorld).2
      = .rejected (mkError "invalid reqType") :=
  ⟨⟨rfl, by simp, sampleDeps_framed _, rfl, rfl⟩,
    ((invalid_reqType_rejects (sampleDeps (.resolved .null)) sampleClient
      { sampleLeaf with rest := [("reqType", .str "foo")] }).2.2 sampleFraming
      sampleClient [] []
      (.obj [("param3", .str "steve")]) .undefined .undefined
      (sampleBag "foo" (.obj [("param3", .str "steve")])) sampleWorld sampleWorld
      (entryWorld sampleClient { sampleLeaf with rest := [("reqType", .str "foo")] }
        (.obj [("param3", .str "steve")]) .undefined sampleWorld)
      rfl (by simp) (sampleDeps_framed _) rfl rfl rfl rfl rfl rfl rfl
      sampleFraming_after_keeps_error
      (defaultAfterFn_keeps_error { sampleLeaf with rest := [("reqType", .str "foo")] }
        rfl)).2.2⟩

/-! ## The response a call reads -/

theorem apiFn_eq_afterFn_error (d : Deps) (self0 self : TuaApi) (c : ApiConfig)
    (args options r e : Val) (data : Val) (w w1 w2 w3 w4 : World) (hopt : options ≠ .null)
    (hbefore : (c.beforeFn.getD defaultBeforeFn) w = (w1, .resolved r))
    (hcb : beforeFnCallback (paramsOf c) r (entryWorld self0 c args options w1) = (w2, .ok ()))
    (hpipe : middlewareFnOf d self c w2 = (w3, .ok ()))
    (hdata : getProp (getField w3.ctx "res") "data" = .ok data)
    (hafter : (c.afterFn.getD defaultAfterFn) data w3 = (w4, .error e)) :
    apiFn d self0 self c args options w = (w4, .rejected e) := by
  unfold apiFn
  cases options <;> first
    | exact absurd rfl hopt
    | simp only [hbefore, hcb, hpipe, hdata, hafter]

/-- Claim C3 as amended, the response after the pipeline: when the framing,
global and local middlewares all have the shape `before; await next(); after`,
their `after` parts and the post-hook leave a defined `ctx.res` defined, and
the transport does not resolve with `undefined` or `null`, the pipeline is
fulfilled; right after the dispatch step `ctx.res` is the value the transport
resolved with or the default error payload with an error; at the end of the
pipeline `ctx.res` is defined; and in every call that reaches the pipeline the
read of `ctx.res.data` at line 275 and, when the post-hook does not throw, the
reads of `ctx.res.error` and `ctx.res.data` at lines 277-279 find a defined
response: the call settles with the error or the data of the response. -/
theorem pipeline_populates_res (d : Deps) (f : FramingParts) (self0 self : TuaApi)
    (c : ApiConfig) (gs ls : List Parts) (w : World)
    (hd : d.framedBy f) (hg : self.middleware = gs.map onion)
    (hl : c.middleware.getD [] = ls.map onion)
    (hres : ∀ arg v, _reqFn d arg = .resolved v → isDefined v = true)
    (hafter : ∀ p ∈ chainParts f (if c.useGlobalMiddleware.getD true then gs ++ ls else ls),
      ∀ w, isDefined (resOf w) = true → isDefined (resOf (p.2 w)) = true)
    (hafterFn : ∀ data w3 w4, (c.afterFn.getD defaultAfterFn) data w3 = (w4, .ok ()) →
      isDefined (resOf w3) = true → isDefined (resOf w4) = true) :
    (middlewareFnOf d self c w).2 = .ok () ∧
    ((∃ arg v,
        reqFnParamsOf (beforeAll
          (chainParts f (if c.useGlobalMiddleware.getD true then gs ++ ls else ls)) w)
          = .ok arg ∧
        _reqFn d arg = .resolved v ∧
        resOf (dispatched d (beforeAll
          (chainParts f (if c.useGlobalMiddleware.getD true then gs ++ ls else ls)) w)) = v) ∨
      (∃ copy e,
        resOf (dispatched d (beforeAll
          (chainParts f (if c.useGlobalMiddleware.getD true then gs ++ ls else ls)) w))
          = .obj [("data", .obj copy), ("error", e)] ∧
        ∀ k, copy.lookup k =
          (ownEntries (beforeAll
            (chainParts f (if c.useGlobalMiddleware.getD true then gs ++ ls else ls)) w
            ).defaultErrorData).lookup k)) ∧
    isDefined (resOf (middlewareFnOf d self c w).1) = true ∧
    (∃ data, getProp (resOf (middlewareFnOf d self c w).1) "data" = .ok data) ∧
    (∃ error, resError (middlewareFnOf d self c w).1 = .ok error) ∧
    (∀ (args options r : Val) (w0 w1 : World), options ≠ .null →
      (c.beforeFn.getD defaultBeforeFn) w0 = (w1, .resolved r) →
      beforeFnCallback (paramsOf c) r (entryWorld self0 c args options w1) = (w, .ok ()) →
      ∃ data, getProp (resOf (middlewareFnOf d self c w).1) "data" = .ok data ∧
        (∀ w4 e, (c.afterFn.getD defaultAfterFn) data (middlewareFnOf d self c w).1
            = (w4, .error e) →
          apiFn d self0 self c args options w0 = (w4, .rejected e)) ∧
        (∀ w4, (c.afterFn.getD defaultAfterFn) data (middlewareFnOf d self c w).1
            = (w4, .ok ()) →
          ∃ error, resError w4 = .ok error ∧
            getProp (resOf w4) "data" = .ok (field (resOf w4) "data") ∧
            apiFn d self0 self c args options w0 = settle w4 ∧
            settle w4 = if truthy error then (w4, .rejected error)
              else (w4, .resolved (field (resOf w4) "data")))) := by
  have hrun : middlewareFnOf d self c w = _ :=
    getMiddlewareFn_onion d f self (c.middleware.getD []) (c.useGlobalMiddleware.getD true)
      gs ls hd hg hl w
  have hcases := resOf_dispatched_cases d
    (beforeAll (chainParts f (if c.useGlobalMiddleware.getD true then gs ++ ls else ls)) w)
  have hdef : isDefined (resOf (dispatched d (beforeAll
      (chainParts f (if c.useGlobalMiddleware.getD true then gs ++ ls else ls)) w))) = true := by
    rcases hcases with ⟨arg, v, _, hv, hr⟩ | ⟨copy, e, hr, _⟩
    · rw [hr]; exact hres arg v hv
    · rw [hr]; rfl
  have hfin : isDefined (resOf (middlewareFnOf d self c w).1) = true := by
    rw [hrun]
    exact afterAll_preserves (fun w => isDefined (resOf w) = true) _ hafter _ hdef
  have hpipe : middlewareFnOf d self c w = ((middlewareFnOf d self c w).1, .ok ()) := by
    rw [hrun]
  refine ⟨by rw [hrun], hcases, hfin, ⟨_, getProp_of_isDefined _ _ hfin⟩,
    ⟨_, getProp_of_isDefined _ _ hfin⟩, ?_⟩
  intro args options r w0 w1 hopt hbefore hcb
  have hdata := getProp_of_isDefined (resOf (middlewareFnOf d self c w).1) "data" hfin
  refine ⟨_, hdata, ?_, ?_⟩
  · intro w4 e h4
    exact apiFn_eq_afterFn_error d self0 self c args options r e _ w0 w1 w _ w4 hopt hbefore hcb
      hpipe hdata h4
  · intro w4 h4
    have hdef4 : isDefined (resOf w4) = true := hafterFn _ _ w4 h4 hfin
    have herr : resError w4 = .ok (field (resOf w4) "error") :=
      getProp_of_isDefined _ _ hdef4
    exact ⟨_, herr, getProp_of_isDefined _ _ hdef4,
      apiFn_eq_settle d self0 self c args options r _ w0 w1 w _ w4 hopt hbefore hcb hpipe
        hdata h4,
      settle_of_resError w4 _ herr⟩

/-- An instance of claim C3 as amended: a call of the sample leaf, with a
transport that resolves with an object, resolves with the data of the response. -/
theorem pipeline_populates_res_witness :
    ((sampleDeps (.resolved (.obj [("data", .num 1)]))).framedBy sampleFraming ∧
      sampleClient.middleware = ([] : List Parts).map onion ∧
      sampleLeaf.middleware.getD [] = ([] : List Parts).map onion ∧
      (∀ arg v, _reqFn (sampleDeps (.resolved (.obj [("data", .num 1)]))) arg = .resolved v →
        isDefined v = true) ∧
      (∀ p ∈ chainParts sampleFraming (if sampleLeaf.useGlobalMiddleware.getD true
          then [] ++ [] else []),
        ∀ w, isDefined (resOf w) = true → isDefined (resOf (p.2 w)) = true) ∧
      (∀ data w3 w4, (sampleLeaf.afterFn.getD defaultAfterFn) data w3 = (w4, .ok ()) →
        isDefined (resOf w3) = true → isDefined (resOf w4) = true)) ∧
    isDefined (resOf (middlewareFnOf (sampleDeps (.resolved (.obj [("data", .num 1)])))
      sampleClient sampleLeaf samplePipelineWorld).1) = true ∧
    (apiFn (sampleDeps (.resolved (.obj [("data", .num 1)]))) sampleClient sampleClient
      sampleLeaf .undefined .undefined sampleWorld).2 = .resolved (.num 1) :=
  have hres : ∀ arg v, _reqFn (sampleDeps (.resolved (.obj [("data", .num 1)]))) arg
      = .resolved v → isDefined v = true := fun arg v h => by
    have := reqFn_sampleDeps _ arg v h
    cases this
    rfl
  have hpost : ∀ data w3 w4, (sampleLeaf.afterFn.getD defaultAfterFn) data w3 = (w4, .ok ()) →
      isDefined (resOf w3) = true → isDefined (resOf w4) = true := fun _ _ _ h h3 => by
    cases h
    exact h3
  ⟨⟨sampleDeps_framed _, rfl, rfl, hres, sampleFraming_after_defined, hpost⟩,
    (pipeline_populates_res (sampleDeps (.resolved (.obj [("data", .num 1)]))) sampleFraming
      sampleClient sampleClient sampleLeaf [] [] samplePipelineWorld (sampleDeps_framed _)
      rfl rfl hres sampleFraming_after_defined hpost).2.2.1, rfl⟩

/-- Claim C6 fails when a hook or a middleware gets in the way: on the sample
leaf with the invalid `reqType` `foo`, a local middleware that returns without
calling its continuation makes the call reject with the `TypeError` of the
read `ctx.res.data`, and a pre-hook that resolves with `null` makes it reject
with the `TypeError` of the read `rArgs.header`; neither is the error
`invalid reqType`. -/
theorem invalid_reqType_not_always_reported :
    isValidReqType (sampleDeps (.resolved .null))
      (effectiveReqType sampleClient { sampleLeaf with rest := [("reqType", .str "foo")] })
      = false ∧
    (apiFn (sampleDeps (.resolved .null)) sampleClient sampleClient
      { sampleLeaf with rest := [("reqType", .str "foo")], middleware := some [skipNext] }
      (.obj [("param3", .str "steve")]) .undefined sampleWorld).2
      = .rejected (typeError "read data of undefined") ∧
    (apiFn (sampleDeps (.resolved .null)) sampleClient sampleClient
      { sampleLeaf with rest := [("reqType", .str "foo")], beforeFn := some nullHook }
      (.obj [("param3", .str "steve")]) .undefined sampleWorld).2
      = .rejected (typeError "read header of null") ∧
    typeError "read data of undefined" ≠ mkError "invalid reqType" ∧
    typeError "read header of null" ≠ mkError "invalid reqType" :=
  ⟨rfl, rfl, rfl, by simp [typeError, mkError], by simp [typeError, mkError]⟩

/-- Claim C7 fails in its last clause when an earlier middleware does not call
its continuation: with the global sequence `skipNext`, `countCalls`, a call of
the sample leaf, which uses the global middlewares, is fulfilled and the
second global middleware has not been invoked. -/
theorem global_middleware_not_invoked :
    ((sampleClient.use skipNext).use (onion countCalls)).middleware
      = [skipNext, onion countCalls] ∧
    sampleLeaf.useGlobalMiddleware.getD true = true ∧
    (middlewareFnOf (sampleDeps (.resolved (.obj [("data", .num 1)])))
      ((sampleClient.use skipNext).use (onion countCalls)) sampleLeaf
      samplePipelineWorld).2 = .ok () ∧
    getField (middlewareFnOf (sampleDeps (.resolved (.obj [("data", .num 1)])))
      ((sampleClient.use skipNext).use (onion countCalls)) sampleLeaf
      samplePipelineWorld).1.ctx "calls" = .undefined :=
  ⟨rfl, rfl, rfl, rfl⟩

/-! ## The request function and the declared params across calls -/

theorem field_setProp_ne (t t' v : Val) (k k' : String) (h : setProp t k v = .ok t')
    (hk : k' ≠ k) : field t' k' = field t k' := by
  cases t <;> simp only [setProp] at h <;> cases h <;> first
    | rfl
    | (show getField (setField _ k v) k' = getField _ k'
       rw [getField_setField, if_neg hk])

theorem leafView_congr (w w' : World) (hk : w'.key = w.key) (hf : w'.fnParams = w.fnParams)
    (hp : w'.params = w.params) (hs : w'.sharesParams = w.sharesParams)
    (hc : field (getField w'.ctx "req") "params" = field (getField w.ctx "req") "params") :
    leafView w' = leafView w := by
  simp only [leafView, fnParamsAt, declaredParamsAt, hk, hf, hp, hs, hc]

theorem leafView_setField_ne (w : World) (k : String) (v : Val) (hk : "req" ≠ k) :
    leafView { w with ctx := setField w.ctx k v } = leafView w := by
  apply leafView_congr <;> first | rfl | skip
  show field (getField (setField w.ctx k v) "req") "params" = _
  rw [getField_setField, if_neg hk]

theorem leafView_setReq (w : World) (k : String) (v req1 : Val) (hk : "params" ≠ k)
    (h : setProp (getField w.ctx "req") k v = .ok req1) :
    leafView { w with ctx := setField w.ctx "req" req1 } = leafView w := by
  apply leafView_congr <;> first | rfl | skip
  show field (getField (setField w.ctx "req" req1) "req") "params" = _
  rw [getField_setField_self]
  exact field_setProp_ne _ _ _ _ _ h hk

theorem storeHeader_keeps (rArgs : Val) (w w1 : World) (h : storeHeader rArgs w = .ok w1) :
    leafView w1 = leafView w := by
  unfold storeHeader at h
  cases hh : getProp rArgs "header" with
  | error e => rw [hh] at h; cases h
  | ok header =>
    rw [hh] at h
    by_cases ht : truthy header = true
    · simp only [ht, if_true] at h
      cases h1 : getProp (getField w.ctx "req") "reqFnParams" with
      | error e => simp only [h1] at h; cases h
      | ok rfp =>
        simp only [h1] at h
        cases h2 : setProp rfp "header" header with
        | error e => simp only [h2] at h; cases h
        | ok rfp1 =>
          simp only [h2] at h
          cases h3 : setProp (getField w.ctx "req") "reqFnParams" rfp1 with
          | error e => simp only [h3] at h; cases h
          | ok req =>
            simp only [h3] at h
            cases h
            exact leafView_setReq w _ _ _ (by decide) h3
    · simp only [ht] at h
      cases h
      rfl

theorem beforeFnCallback_keeps (params r : Val) (w : World) :
    leafView (beforeFnCallback params r w).1 = leafView w := by
  unfold beforeFnCallback
  cases hs : storeHeader (rArgsOf r) w with
  | error e => rfl
  | ok w1 =>
    have h1 := storeHeader_keeps _ w w1 hs
    by_cases ht : truthy (field (rArgsOf r) "params") = true
    · simp only [ht, Bool.not_true]
      cases h2 : setProp (getField w1.ctx "req") "params"
          (if isArray params = true then field (rArgsOf r) "params"
            else .obj (assign (assign [] (ownEntries params))
              (ownEntries (field (rArgsOf r) "params")))) with
      | error e => simpa [h2] using h1
      | ok req =>
        simp only [h2]
        rw [← h1]
        simp only [leafView, fnParamsAt, declaredParamsAt]
        simp
    · simp only [ht]
      simpa using h1

theorem leafView_entryWorld (self0 : TuaApi) (c : ApiConfig) (args options : Val) (w : World)
    (h : declaredParamsAt w = paramsOf c) :
    leafView (entryWorld self0 c args options w) = leafView w := by
  have hp : declaredParamsAt (entryWorld self0 c args options w) = paramsOf c := by
    show field (getField (entryWorld self0 c args options w).ctx "req") "params" = _
    rw [entry_req]
    exact entry_params self0 c _ _
  have hf : fnParamsAt (entryWorld self0 c args options w) = fnParamsAt w := by
    show (match w.fnParams with
      | none => declaredParamsAt (entryWorld self0 c args options w)
      | some v => v) = (match w.fnParams with
      | none => declaredParamsAt w
      | some v => v)
    rw [hp, h]
  show LeafView.mk w.key (fnParamsAt (entryWorld self0 c args options w))
    (declaredParamsAt (entryWorld self0 c args options w)) = LeafView.mk w.key _ _
  rw [hf, hp, h]

theorem dispatchStep_keeps (d : Deps) : MiddlewareKeepsLeaf (dispatchStep d) := by
  intro next hnext w
  show leafView { (next w).1 with ctx := setField (next w).1.ctx "res" _ } = _
  rw [leafView_setField_ne _ _ _ (by decide)]
  exact hnext w

theorem koaCompose_keeps (ms : List Middleware) (h : ∀ m ∈ ms, MiddlewareKeepsLeaf m) :
    KeepsLeaf (koaCompose ms) := by
  induction ms with
  | nil => intro w; rfl
  | cons m ms ih =>
    intro w
    exact h m (List.mem_cons_self _ _) (koaCompose ms)
      (ih (fun m' hm' => h m' (List.mem_cons_of_mem _ hm'))) w

theorem middlewareFnOf_keeps (d : Deps) (self : TuaApi) (c : ApiConfig) (hd : d.keepsLeaf)
    (hglobal : ∀ m ∈ self.middleware, MiddlewareKeepsLeaf m)
    (hlocal : ∀ m ∈ c.middleware.getD [], MiddlewareKeepsLeaf m) :
    KeepsLeaf (middlewareFnOf d self c) := by
  obtain ⟨h1, h2, h3, h4, h5⟩ := hd
  apply koaCompose_keeps
  intro m hm
  simp only [middlewareChain, List.mem_append, List.mem_cons, List.mem_singleton,
    List.not_mem_nil, or_false] at hm
  rcases hm with ((rfl | rfl) | hu) | rfl | rfl | rfl | rfl
  · exact h1
  · exact h2
  · by_cases hg : c.useGlobalMiddleware.getD true = true
    · rw [if_pos hg, List.mem_append] at hu
      rcases hu with hu | hu
      · exact hglobal m hu
      · exact hlocal m hu
    · rw [if_neg hg] at hu
      exact hlocal m hu
  · exact h3
  · exact h4
  · exact h5
  · exact dispatchStep_keeps d

theorem leafView_settle (w : World) : leafView (settle w).1 = leafView w := by
  unfold settle
  split
  · rfl
  · split <;> rfl

theorem apiFn_keeps (d : Deps) (self0 self : TuaApi) (c : ApiConfig) (args options : Val)
    (w : World) (hd : d.keepsLeaf)
    (hglobal : ∀ m ∈ self.middleware, MiddlewareKeepsLeaf m)
    (hlocal : ∀ m ∈ c.middleware.getD [], MiddlewareKeepsLeaf m)
    (hbefore : KeepsLeaf (c.beforeFn.getD defaultBeforeFn))
    (hafter : ∀ data, KeepsLeaf ((c.afterFn.getD defaultAfterFn) data))
    (hw : declaredParamsAt w = paramsOf c) :
    leafView (apiFn d self0 self c args options w).1 = leafView w := by
  have hb := hbefore w
  have hpipe := middlewareFnOf_keeps d self c hd hglobal hlocal
  have key : ∀ w1 r, (c.beforeFn.getD defaultBeforeFn) w = (w1, .resolved r) →
      leafView (match beforeFnCallback (paramsOf c) r (entryWorld self0 c args options w1) with
        | (w2, .error e) => (w2, Outcome.rejected e)
        | (w2, .ok ()) =>
          match middlewareFnOf d self c w2 with
          | (w3, .error e) => (w3, .rejected e)
          | (w3, .ok ()) =>
            match getProp (getField w3.ctx "res") "data" with
            | .error e => (w3, .rejected e)
            | .ok data =>
              match (c.afterFn.getD defaultAfterFn) data w3 with
              | (w4, .error e) => (w4, .rejected e)
              | (w4, .ok ()) => settle w4).1 = leafView w := by
    intro w1 r h1
    have hw1 : leafView w1 = leafView w := by
      have := hb
      rw [h1] at this
      exact this
    have hd1 : declaredParamsAt w1 = paramsOf c := by
      have : (leafView w1).params = (leafView w).params := by rw [hw1]
      exact this.trans hw
    have he := leafView_entryWorld self0 c args options w1 hd1
    have hcb := beforeFnCallback_keeps (paramsOf c) r (entryWorld self0 c args options w1)
    rcases hx : beforeFnCallback (paramsOf c) r (entryWorld self0 c args options w1)
      with ⟨w2, _ | ⟨⟨⟩⟩⟩
    · rw [hx] at hcb
      exact hcb.trans (he.trans hw1)
    · rw [hx] at hcb
      have h2 : leafView w2 = leafView w := hcb.trans (he.trans hw1)
      have hp2 := hpipe w2
      dsimp only
      rcases hy : middlewareFnOf d self c w2 with ⟨w3, _ | ⟨⟨⟩⟩⟩
      · rw [hy] at hp2
        exact hp2.trans h2
      · rw [hy] at hp2
        have h3 : leafView w3 = leafView w := hp2.trans h2
        dsimp only
        cases hz : getProp (getField w3.ctx "res") "data" with
        | error e => exact h3
        | ok data =>
          have ha := hafter data w3
          dsimp only
          rcases hv : (c.afterFn.getD defaultAfterFn) data w3 with ⟨w4, _ | ⟨⟨⟩⟩⟩
          · rw [hv] at ha
            exact ha.trans h3
          · rw [hv] at ha
            exact (leafView_settle w4).trans (ha.trans h3)
  unfold apiFn
  cases options <;> first
    | rfl
    | (rcases hq : (c.beforeFn.getD defaultBeforeFn) w with ⟨w1, r | e | e⟩
       · exact key w1 r hq
       · rw [hq] at hb; exact hb
       · rw [hq] at hb; exact hb)

theorem leafAfter_rest (c : ApiConfig) (w : World) (h : c.rest.lookup "reqFnParams" = none) :
    (leafAfter c w).rest = c.rest := by
  show (if (c.rest.lookup "reqFnParams").isSome
    then setField c.rest "reqFnParams" (ownBagAt w) else c.rest) = c.rest
  rw [h]
  rfl

theorem callSeq_keeps (d : Deps) (self0 : TuaApi) (calls : List CallInput) :
    ∀ (c : ApiConfig) (w : World), c.rest.lookup "reqFnParams" = none → d.keepsLeaf →
      (∀ i ∈ calls, ∀ m ∈ i.self.middleware, MiddlewareKeepsLeaf m) →
      (∀ m ∈ c.middleware.getD [], MiddlewareKeepsLeaf m) →
      KeepsLeaf (c.beforeFn.getD defaultBeforeFn) →
      (∀ data, KeepsLeaf ((c.afterFn.getD defaultAfterFn) data)) →
      declaredParamsAt w = paramsOf c →
      leafView (callSeq d self0 calls (c, w)).2 = leafView w ∧
      paramsOf (callSeq d self0 calls (c, w)).1 = paramsOf c ∧
      (callSeq d self0 calls (c, w)).1.rest = c.rest := by
  induction calls with
  | nil => intro c w _ _ _ _ _ _ _; exact ⟨rfl, rfl, rfl⟩
  | cons i calls ih =>
    intro c w hbag hd hglobal hlocal hbefore hafter hw
    have hcall := apiFn_keeps d self0 i.self c i.args i.options w hd
      (hglobal i (List.mem_cons_self _ _)) hlocal hbefore hafter hw
    have hp : declaredParamsAt (apiFn d self0 i.self c i.args i.options w).1 = paramsOf c := by
      have : (leafView (apiFn d self0 i.self c i.args i.options w).1).params
          = (leafView w).params := by rw [hcall]
      exact this.trans hw
    have hrest := leafAfter_rest c (apiFn d self0 i.self c i.args i.options w).1 hbag
    have hnext := ih (leafAfter c (apiFn d self0 i.self c i.args i.options w).1)
      (apiFn d self0 i.self c i.args i.options w).1 (by rw [hrest]; exact hbag) hd
      (fun j hj => hglobal j (List.mem_cons_of_mem _ hj)) hlocal hbefore hafter rfl
    show leafView (callSeq d self0 calls (_, _)).2 = _ ∧
      paramsOf (callSeq d self0 calls (_, _)).1 = _ ∧ (callSeq d self0 calls (_, _)).1.rest = _
    refine ⟨hnext.1.trans hcall, hnext.2.1.trans hp, hnext.2.2.trans hrest⟩

theorem onion_keeps (p : Parts) (h1 : ∀ w, leafView (p.1 w) = leafView w)
    (h2 : ∀ w, leafView (p.2 w) = leafView w) : MiddlewareKeepsLeaf (onion p) := by
  intro next hnext w
  show leafView (onion p w next).1 = _
  rw [onion_apply]
  have hn := hnext (p.1 w)
  rcases hx : next (p.1 w) with ⟨w1, _ | ⟨⟨⟩⟩⟩
  · rw [hx] at hn
    exact hn.trans (h1 w)
  · rw [hx] at hn
    exact (h2 w1).trans (hn.trans (h1 w))

theorem sampleDeps_keepsLeaf (out : Outcome) : (sampleDeps out).keepsLeaf := by
  refine ⟨onion_keeps _ ?_ (fun _ => rfl), onion_keeps _ ?_ (fun _ => rfl),
    onion_keeps _ ?_ (fun _ => rfl), onion_keeps _ (fun _ => rfl) ?_,
    onion_keeps _ (fun _ => rfl) ?_⟩
  · intro w
    exact leafView_setField_ne w _ _ (by decide)
  · intro w
    show leafView (match setProp (getField w.ctx "req") "reqParams"
        (field (getField w.ctx "req") "args") with
      | .ok req1 => { w with ctx := setField w.ctx "req" req1 }
      | .error _ => w) = _
    cases h : setProp (getField w.ctx "req") "reqParams" (field (getField w.ctx "req") "args") with
    | error e => rfl
    | ok req1 => exact leafView_setReq w _ _ _ (by decide) h
  · intro w
    show leafView (sampleFraming.updateFullUrl.1 w) = _
    unfold sampleFraming
    dsimp only
    split
    · rename_i req1 h
      exact (leafView_congr _ _ rfl rfl rfl rfl rfl).trans
        (leafView_setReq w _ _ _ (by decide) h)
    · rfl
  · intro w
    show leafView (sampleFraming.formatResData.2 w) = _
    unfold sampleFraming
    dsimp only
    split
    · split
      · exact leafView_setField_ne w _ _ (by decide)
      · rfl
    · rfl
  · intro w
    exact (leafView_setField_ne _ _ _ (by decide)).trans (leafView_setField_ne w _ _ (by decide))

theorem countCalls_keeps : MiddlewareKeepsLeaf (onion countCalls) :=
  onion_keeps _ (fun w => leafView_setField_ne w _ _ (by decide)) (fun _ => rfl)

/-- Claim C10 fails in two ways.  A middleware that writes into the object
`ctx.req.params` writes into the declared params object: after one call of the
sample leaf with the local middleware `ctx.req.params.injected = 1`,
`apiFn.params` and the declared params are no longer the empty mapping that
`_getOneReqMap` attached, and the next call starts from the changed object.
On a leaf that has a property `reqFnParams` of its own, the header that the
pre-hook of one call returns is written into that object (line 254), so the
context of the next call carries it before its own pre-hook has returned. -/
theorem metadata_changed_by_a_call :
    (_getOneReqMap (sampleDeps (.resolved (.obj [("data", .num 1)]))) sampleClient
      { sampleLeaf with middleware := some [onion injectParams] }).map (fun e => e.2.params)
      = [.obj []] ∧
    fnParamsAt (callSeq (sampleDeps (.resolved (.obj [("data", .num 1)]))) sampleClient
      [⟨sampleClient, .undefined, .undefined⟩]
      ({ sampleLeaf with middleware := some [onion injectParams] },
        attachKeyAndParams { sampleLeaf with middleware := some [onion injectParams] }
          sampleWorld)).2 = .obj [("injected", .num 1)] ∧
    paramsOf (callSeq (sampleDeps (.resolved (.obj [("data", .num 1)]))) sampleClient
      [⟨sampleClient, .undefined, .undefined⟩]
      ({ sampleLeaf with middleware := some [onion injectParams] },
        attachKeyAndParams { sampleLeaf with middleware := some [onion injectParams] }
          sampleWorld)).1 = .obj [("injected", .num 1)] ∧
    field (getField (entryWorld sampleClient
      (callSeq (sampleDeps (.resolved (.obj [("data", .num 1)]))) sampleClient
        [⟨sampleClient, .undefined, .undefined⟩]
        ({ sampleLeaf with middleware := some [onion injectParams] },
          attachKeyAndParams { sampleLeaf with middleware := some [onion injectParams] }
            sampleWorld)).1 .undefined .undefined sampleWorld).ctx "req") "params"
      = .obj [("injected", .num 1)] ∧
    field (getField (entryWorld sampleClient
      { sampleLeaf with rest := [("reqFnParams", .obj [])], beforeFn := some headerHook }
      .undefined .undefined sampleWorld).ctx "req") "reqFnParams" = .obj [] ∧
    field (getField (entryWorld sampleClient
      (callSeq (sampleDeps (.resolved (.obj [("data", .num 1)]))) sampleClient
        [⟨sampleClient, .undefined, .undefined⟩]
        ({ sampleLeaf with rest := [("reqFnParams", .obj [])], beforeFn := some headerHook },
          attachKeyAndParams
            { sampleLeaf with rest := [("reqFnParams", .obj [])], beforeFn := some headerHook }
            sampleWorld)).1 .undefined .undefined sampleWorld).ctx "req") "reqFnParams"
      = .obj [("header", .str "h")] :=
  ⟨rfl, rfl, rfl, rfl, rfl, rfl⟩

/-- Claim C10 as amended, stable metadata: the request function that
`_getOneReqMap` makes has the key `prefix + "/" + path` and the declared params
(`{}` when none are declared) as its params.  On a leaf without a property
`reqFnParams` of its own, when the hooks and the framing, global and local
middlewares neither assign `apiFn.key` or `apiFn.params` nor write into the
declared params object, any sequence of calls, whatever the arguments and
whatever params or header the pre-hook returns, leaves `apiFn.key`,
`apiFn.params` and the declared params object as they were; and a later call
starts with the declared params in `ctx.req.params` and a fresh empty
`ctx.req.reqFnParams`, so that its params are the declared ones merged with
what its own pre-hook returns. -/
theorem metadata_stable_across_calls (d : Deps) (self0 : TuaApi) (c : ApiConfig) (w : World) :
    (∃ fn, _getOneReqMap d self0 c = [(apiNameOf c, fn)] ∧
      fn.key = .str (c.prefix_ ++ "/" ++ c.path) ∧ fn.params = c.params.getD (.obj [])) ∧
    (attachKeyAndParams c w).key = .str (c.prefix_ ++ "/" ++ c.path) ∧
    fnParamsAt (attachKeyAndParams c w) = c.params.getD (.obj []) ∧
    declaredParamsAt (attachKeyAndParams c w) = c.params.getD (.obj []) ∧
    (∀ calls : List CallInput,
      c.rest.lookup "reqFnParams" = none → d.keepsLeaf →
      (∀ i ∈ calls, ∀ m ∈ i.self.middleware, MiddlewareKeepsLeaf m) →
      (∀ m ∈ c.middleware.getD [], MiddlewareKeepsLeaf m) →
      KeepsLeaf (c.beforeFn.getD defaultBeforeFn) →
      (∀ data, KeepsLeaf ((c.afterFn.getD defaultAfterFn) data)) →
      (callSeq d self0 calls (c, attachKeyAndParams c w)).2.key
        = .str (c.prefix_ ++ "/" ++ c.path) ∧
      fnParamsAt (callSeq d self0 calls (c, attachKeyAndParams c w)).2
        = c.params.getD (.obj []) ∧
      declaredParamsAt (callSeq d self0 calls (c, attachKeyAndParams c w)).2
        = c.params.getD (.obj []) ∧
      paramsOf (callSeq d self0 calls (c, attachKeyAndParams c w)).1
        = c.params.getD (.obj []) ∧
      (∀ (args options r : Val) (w1 w2 : World),
        field (getField (entryWorld self0 (callSeq d self0 calls (c, attachKeyAndParams c w)).1
          args options w1).ctx "req") "params" = c.params.getD (.obj []) ∧
        field (getField (entryWorld self0 (callSeq d self0 calls (c, attachKeyAndParams c w)).1
          args options w1).ctx "req") "reqFnParams" = .obj [] ∧
        (beforeFnCallback (paramsOf (callSeq d self0 calls (c, attachKeyAndParams c w)).1) r
            (entryWorld self0 (callSeq d self0 calls (c, attachKeyAndParams c w)).1
              args options w1) = (w2, .ok ()) →
          field (getField w2.ctx "req") "params"
            = mergeParams (c.params.getD (.obj [])) r))) := by
  refine ⟨⟨_, rfl, rfl, rfl⟩, rfl, rfl, rfl, ?_⟩
  intro calls hbag hd hglobal hlocal hbefore hafter
  obtain ⟨hview, hparams, hrest⟩ := callSeq_keeps d self0 calls c (attachKeyAndParams c w)
    hbag hd hglobal hlocal hbefore hafter rfl
  have hk : (leafView (callSeq d self0 calls (c, attachKeyAndParams c w)).2).key
      = (leafView (attachKeyAndParams c w)).key := by rw [hview]
  have hf : (leafView (callSeq d self0 calls (c, attachKeyAndParams c w)).2).fnParams
      = (leafView (attachKeyAndParams c w)).fnParams := by rw [hview]
  have hp : (leafView (callSeq d self0 calls (c, attachKeyAndParams c w)).2).params
      = (leafView (attachKeyAndParams c w)).params := by rw [hview]
  refine ⟨hk, hf, hp, hparams, ?_⟩
  intro args options r w1 w2
  have he : field (getField (entryWorld self0
      (callSeq d self0 calls (c, attachKeyAndParams c w)).1 args options w1).ctx "req") "params"
      = paramsOf c := by
    rw [entry_req]
    exact (entry_params self0 _ _ _).trans hparams
  refine ⟨he, ?_, ?_⟩
  · rw [entry_req]
    exact entry_bag self0 _ _ _ (by rw [hrest]; exact hbag)
  · intro h
    have := beforeFnCallback_params _ r _ w2 _ (entry_req self0 _ args options w1)
      (entry_params self0 _ _ _) h
    rw [hparams] at this
    exact this

/-- An instance of claim C10 as amended: two calls of a leaf that declares the
params `{a: 1}` and whose pre-hook returns the params `{b: 2}` and a header
leave `apiFn.key`, `apiFn.params` and the declared params as they were, while
the context of each call carries `{a: 1, b: 2}`. -/
theorem metadata_stable_across_calls_witness :
    ((({ sampleLeaf with params := some (.obj [("a", .num 1)]), beforeFn := some paramsHook }
        : ApiConfig).rest.lookup "reqFnParams" = none) ∧
      (sampleDeps (.resolved (.obj [("data", .num 1)]))).keepsLeaf ∧
      (∀ i ∈ [(⟨sampleClient.use (onion countCalls), .undefined, .undefined⟩ : CallInput),
          ⟨sampleClient, .obj [("x", .num 1)], .undefined⟩],
        ∀ m ∈ i.self.middleware, MiddlewareKeepsLeaf m)) ∧
    (callSeq (sampleDeps (.resolved (.obj [("data", .num 1)]))) sampleClient
      [⟨sampleClient.use (onion countCalls), .undefined, .undefined⟩,
        ⟨sampleClient, .obj [("x", .num 1)], .undefined⟩]
      ({ sampleLeaf with params := some (.obj [("a", .num 1)]), beforeFn := some paramsHook },
        attachKeyAndParams
          { sampleLeaf with params := some (.obj [("a", .num 1)]), beforeFn := some paramsHook }
          sampleWorld)).2.key = .str ("api" ++ "/" ++ "list") ∧
    fnParamsAt (callSeq (sampleDeps (.resolved (.obj [("data", .num 1)]))) sampleClient
      [⟨sampleClient.use (onion countCalls), .undefined, .undefined⟩,
        ⟨sampleClient, .obj [("x", .num 1)], .undefined⟩]
      ({ sampleLeaf with params := some (.obj [("a", .num 1)]), beforeFn := some paramsHook },
        attachKeyAndParams
          { sampleLeaf with params := some (.obj [("a", .num 1)]), beforeFn := some paramsHook }
          sampleWorld)).2 = .obj [("a", .num 1)] ∧
    field (getField (callSeq (sampleDeps (.resolved (.obj [("data", .num 1)]))) sampleClient
      [⟨sampleClient.use (onion countCalls), .undefined, .undefined⟩,
        ⟨sampleClient, .obj [("x", .num 1)], .undefined⟩]
      ({ sampleLeaf with params := some (.obj [("a", .num 1)]), beforeFn := some paramsHook },
        attachKeyAndParams
          { sampleLeaf with params := some (.obj [("a", .num 1)]), beforeFn := some paramsHook }
          sampleWorld)).2.ctx "req") "params" = .obj [("a", .num 1), ("b", .num 2)] :=
  have hglobal : ∀ i ∈ [(⟨sampleClient.use (onion countCalls), .undefined, .undefined⟩
      : CallInput), ⟨sampleClient, .obj [("x", .num 1)], .undefined⟩],
      ∀ m ∈ i.self.middleware, MiddlewareKeepsLeaf m := by
    intro i hi m hm
    simp only [List.mem_cons, List.mem_singleton, List.not_mem_nil, or_false] at hi
    rcases hi with rfl | rfl
    · have : m = onion countCalls := by
        simpa [TuaApi.use, sampleClient] using hm
      rw [this]
      exact countCalls_keeps
    · simp [sampleClient] at hm
  have h := (metadata_stable_across_calls (sampleDeps (.resolved (.obj [("data", .num 1)])))
    sampleClient
    { sampleLeaf with params := some (.obj [("a", .num 1)]), beforeFn := some paramsHook }
    sampleWorld).2.2.2.2
    [⟨sampleClient.use (onion countCalls), .undefined, .undefined⟩,
      ⟨sampleClient, .obj [("x", .num 1)], .undefined⟩]
    rfl (sampleDeps_keepsLeaf _) hglobal
    (fun m hm => by simp [sampleLeaf] at hm) (fun _ => rfl) (fun _ _ => rfl)
  ⟨⟨rfl, sampleDeps_keepsLeaf _, hglobal⟩, h.1, h.2.1, rfl⟩

end Tua
